import Mathlib

/-!
Verification of the `dependencies` package-with-deps resolver.

A shallow embedding of `src/dependencies/packageswithdeps.go` (package
`dependencies` of RobiNino/gocmd).  Pure string manipulation is translated
directly; stateful code is explicit state passing over a `St` record holding
the shared dependencies cache, a small file-system model, the working
directory, the `GOPROXY` flag and an event trace.  External collaborators
(archive extraction, the `go` tool, Artifactory, the local module cache
lookups) are oracles collected in an `Env` record, as the Go code invokes
them as black boxes.  The mutually recursive traversal
(`PopulateModAndPublish` → `publishDependencyAndPopulateTransitive` →
`populateTransitive` → children) is made total with a fuel parameter; a run
that exhausts its fuel sets `St.fuelOut` and theorems about "a completed
run" hypothesise that the final state has `fuelOut = false`.
-/

/-! ## String utilities

The Go code splits strings on the single-character separators `":"`, `"@"`,
`"/"` and `"\n"` (`strings.Split`) and joins with `strings.Join` /
`filepath.Join`.  We implement these structurally over `List Char` so that
concrete runs reduce inside the kernel. -/

/-- Splitting a character list on a separator character; `acc` is the
(reversed) current chunk.  Mirrors Go `strings.Split` for a one-character
separator: `splitCharAux sep [] "a@b" = ["a", "b"]`,
`splitCharAux sep [] "" = [""]`. -/
def splitCharAux (sep : Char) : List Char → List Char → List (List Char)
  | acc, [] => [acc.reverse]
  | acc, c :: rest =>
    if c = sep then acc.reverse :: splitCharAux sep [] rest
    else splitCharAux sep (c :: acc) rest

/-- Go `strings.Split(s, sep)` for a single-character separator. -/
def strSplit (s : String) (sep : Char) : List String :=
  (splitCharAux sep [] s.data).map String.mk

/-- Go `strings.Join(parts, sep)`. -/
def strJoin (sep : String) : List String → String
  | [] => ""
  | [x] => x
  | x :: rest => x ++ sep ++ strJoin sep rest

/-- Go `strings.Replace(s, ":", "@", 1)`: replace only the first colon. -/
def replaceFirstColonWithAt (s : String) : String :=
  match strSplit s ':' with
  | a :: b :: rest => a ++ "@" ++ strJoin ":" (b :: rest)
  | _ => s

/-- Go `filepath.Dir` (on clean slash-separated paths): the path with its
last component removed, `"."` when there is no separator. -/
def dirOf (s : String) : String :=
  let parts := strSplit s '/'
  if parts.length ≤ 1 then "." else strJoin "/" parts.dropLast

/-- Boolean list prefix test, used for the recursive removal of a temporary
directory from the file-system model. -/
def charsPrefixOf : List Char → List Char → Bool
  | [], _ => true
  | _ :: _, [] => false
  | a :: as, b :: bs => a = b && charsPrefixOf as bs

/-- `strPrefixOf p s` is true when the path `s` starts with `p`. -/
def strPrefixOf (p s : String) : Bool :=
  charsPrefixOf p.data s.data

/-! ## Association lists

The shared cache's `map[string]bool` and the file-system model are
association lists; `assocSet` overwrites in place, `assocGet` returns the
first binding. -/

/-- Lookup in an association list (Go map read `v, ok := m[k]`). -/
def assocGet {α : Type} (m : List (String × α)) (k : String) : Option α :=
  match m.find? (fun p => p.1 == k) with
  | some p => some p.2
  | none => none

/-- Insertion/overwrite in an association list (Go map write `m[k] = v`). -/
def assocSet {α : Type} (m : List (String × α)) (k : String) (v : α) :
    List (String × α) :=
  match m with
  | [] => [(k, v)]
  | (k', v') :: rest =>
    if k' == k then (k, v) :: rest else (k', v') :: assocSet rest k v

/-- Removal from an association list (Go `os.Remove` on the fs model). -/
def assocErase {α : Type} (m : List (String × α)) (k : String) :
    List (String × α) :=
  m.filter (fun p => p.1 ≠ k)

/-! ## Data model -/

/-- Modelled from the spec: the `Package` struct lives in another file of
the `dependencies` package (not under `src/`).  Per spec §3 it is a pure
data holder with a composite id `"path:version"`, a mutable manifest
(`modContent`, accessed in the source through `GetId` / `GetModContent` /
`SetModContent`) and an archive location (`GetZipPath`). -/
structure Package where
  id : String
  modContent : String
  zipPath : String
  deriving Repr, DecidableEq

/-- The `RegExp` pair returned by `GetRegex` (declared in another file of
the repository).  A compiled Go regex is embedded as its observable
behaviour `String → Bool`, true exactly when `FindString` on the argument
returns a non-empty match. -/
structure RegExp where
  notEmptyModRegex : String → Bool
  generatedBy : String → Bool

/-- `RegExp.GetNotEmptyModRegex` accessor used by the source. -/
def RegExp.GetNotEmptyModRegex (r : RegExp) : String → Bool :=
  r.notEmptyModRegex

/-- `RegExp.GetGeneratedBy` accessor used by the source. -/
def RegExp.GetGeneratedBy (r : RegExp) : String → Bool :=
  r.generatedBy

/-- The `PackageWithDeps` struct (`src/dependencies/packageswithdeps.go`,
lines 22–32).  The `transitiveDependencies` slice is threaded explicitly as
a value between `setTransitiveDependencies` and `populateTransitive`
instead of being stored as a field, since Lean structures cannot be
recursive; children are freshly constructed with Go zero values for the
remaining fields (line 313). -/
structure PackageWithDeps where
  Dependency : Package
  regExp : RegExp
  runGoModCommand : Bool := false
  shouldRevertToEmptyMod : Bool := false
  TidyEnum : Nat := 0
  cachePath : String
  GoModEditMessage : String
  originalModContent : String := ""

/-- Modelled from the spec: `utils/cache.DependenciesCache` is not under
`src/`.  Per spec §4.1 it is a ledger with a published-flag map and three
monotone counters, with operations `GetMap`, `IncrementTotal`,
`IncrementSuccess`, `IncrementFailures`. -/
structure DependenciesCache where
  depsMap : List (String × Bool) := []
  total : Nat := 0
  success : Nat := 0
  failures : Nat := 0
  deriving Repr, DecidableEq

/-- Observable events of a run: log lines, file-system writes/reads, `go`
tool invocations, Artifactory calls and cache writes, in chronological
order. -/
inductive Ev where
  | startWork (id : String)
  | unsetGoproxy
  | unzip (zipPath : String)
  | chdir (dir : String)
  | writeFile (path content : String)
  | readFile (path : String)
  | removeFile (path : String)
  | removeGoSumEv (path : String)
  | goModInit (moduleName msg : String)
  | goModTidy (path : String)
  | goModGraph (cwd : String)
  | getSum (dir : String)
  | restoreSum (dir : String)
  | downloadModFromArt (id : String)
  | publish (id modContent : String)
  | cacheWrite (id : String) (flag : Bool)
  | skipPublished (id : String)
  | removeAll (dir : String)
  deriving Repr, DecidableEq

/-- The mutable world: the shared cache, a file-content map for the paths
the source reads back, the process working directory and `GOPROXY`
(process-global, spec §9 / claim C10), the event trace, and the
fuel-exhaustion marker of the embedding. -/
structure St where
  cache : DependenciesCache := {}
  fs : List (String × String) := []
  cwd : String := "/start"
  goproxySet : Bool := true
  trace : List Ev := []
  fuelOut : Bool := false

/-- Append one event to the trace. -/
def St.emit (st : St) (e : Ev) : St :=
  { st with trace := st.trace ++ [e] }

/-- Write a file in the file-system model. -/
def St.fsWrite (st : St) (p c : String) : St :=
  { st with fs := assocSet st.fs p c }

/-- `cache.IncrementTotal(n)`. -/
def St.IncrementTotal (st : St) (n : Nat) : St :=
  { st with cache := { st.cache with total := st.cache.total + n } }

/-- `cache.IncrementSuccess()`. -/
def St.IncrementSuccess (st : St) : St :=
  { st with cache := { st.cache with success := st.cache.success + 1 } }

/-- `cache.IncrementFailures()`. -/
def St.IncrementFailures (st : St) : St :=
  { st with cache := { st.cache with failures := st.cache.failures + 1 } }

/-- `cache.GetMap()[id] = v`. -/
def St.mapSet (st : St) (k : String) (v : Bool) : St :=
  { st with cache := { st.cache with depsMap := assocSet st.cache.depsMap k v } }

/-- `published, _ := cache.GetMap()[id]` — absent keys read as `false`. -/
def St.mapGetD (st : St) (k : String) : Bool :=
  (assocGet st.cache.depsMap k).getD false

/-- Oracles for the external collaborators (spec §6).  Fallible calls
return `Except String`; results are keyed by the arguments the source
passes. -/
structure Env where
  /-- `createDependencyInTemp`: does unzipping `zipPath` succeed? -/
  unzipOk : String → Bool
  /-- temp directory chosen for a zip path. -/
  tempDirOf : String → String
  /-- `go.mod` content found inside the archive, if any. -/
  archiveMod : String → Option String
  /-- does `os.Chdir(dir)` succeed? -/
  chdirOk : String → Bool
  /-- `downloadModFileFromArtifactoryToLocalCache(…, module, version, …)`:
  the returned local path (`""` on failure). -/
  downloadModPath : String → String → String
  /-- reading the file just downloaded from Artifactory at a path. -/
  readArtifactoryMod : String → Except String String
  /-- `cmd.RunGoModInit(moduleName, msg)`: does init succeed? -/
  initOk : String → Bool
  /-- the `go.mod` a successful init writes for a module name. -/
  initContent : String → String
  /-- the `go.mod` a failed init leaves behind, if any. -/
  initFailFile : String → Option String
  /-- `populateModWithTidy(path)`: does tidy succeed? -/
  tidyOk : String → Bool
  /-- the `go.mod` a successful tidy writes at a path. -/
  tidyContent : String → String
  /-- `runGoModGraph()` in a working directory: edges or an error. -/
  graph : String → Except String (List String)
  /-- `cmd.GetSumContentAndRemove(dir)`: the `go.sum` content. -/
  sumContent : String → String
  /-- `cmd.GetSumContentAndRemove(dir)`: non-nil file stat? -/
  sumStat : String → Bool
  /-- `createDependency(cachePath, name, version)`: local-module-cache
  lookup, returning `(modContent, zipPath)` of the package when present. -/
  createDependency : String → String → String → Except String (Option (String × String))
  /-- `shouldDownloadFromArtifactory(path, version, targetRepo, …)`:
  the Artifactory existence probe on the raw edge path. -/
  existsInArtifactory : String → String → String → Except String Bool
  /-- `downloadAndCreateDependency(…, name, version, …)`: download from
  upstream, returning `(modContent, zipPath)` when it yields a package. -/
  downloadDep : String → String → Except String (Option (String × String))
  /-- `Package.prepareAndPublish` outcome (`none` = success). -/
  publishOk : String → Option String
  /-- does `os.RemoveAll(dir)` succeed? -/
  removeAllOk : String → Bool

/-- Substring test over character lists, used by the concrete regex
models. -/
def charsInfixOf (n : List Char) : List Char → Bool
  | [] => n.isEmpty
  | c :: rest => charsPrefixOf n (c :: rest) || charsInfixOf n rest

/-- `strInfixOf n s` is true when `n` occurs inside `s`. -/
def strInfixOf (n s : String) : Bool :=
  charsInfixOf n.data s.data

/-! ## The source functions -/

/-- `PatternMatched` (lines 92–100): split the in-memory mod content on
newlines and test each line against the regex. -/
def PackageWithDeps.PatternMatched (pwd : PackageWithDeps)
    (regExp : String → Bool) : Bool :=
  (strSplit pwd.Dependency.modContent '\n').any regExp

/-- Modelled from the spec: `replaceExclamationMarkWithUpperCase` is
declared in another file of the repository.  Per spec §4.3/§4.4, module
paths encode an uppercase letter via a `'!'` escape and normalisation
inverts this losslessly: `"!a"` decodes to `"A"`. -/
def replaceExclChars : List Char → List Char
  | [] => []
  | '!' :: c :: rest => c.toUpper :: replaceExclChars rest
  | c :: rest => c :: replaceExclChars rest

/-- String wrapper for `replaceExclChars`. -/
def replaceExclamationMarkWithUpperCase (s : String) : String :=
  String.mk (replaceExclChars s.data)

/-- Modelled from the spec: `getDependencyName` is declared in another file
of the repository.  Per spec §4.4 it normalises an edge path by inverting
the uppercase-escape convention. -/
def getDependencyName (name : String) : String :=
  replaceExclamationMarkWithUpperCase name

/-- `updateModContent` (lines 69–79): read the refreshed mod file; on a
read error increment the failure counter and return the error. -/
def updateModContent (env : Env) (pwd : PackageWithDeps) (st : St)
    (path : String) : PackageWithDeps × St × Option String :=
  if path ≠ "" then
    let st := st.emit (.readFile path)
    match env.readArtifactoryMod path with
    | .error e => (pwd, st.IncrementFailures, some e)
    | .ok c =>
      ({ pwd with Dependency := { pwd.Dependency with modContent := c } }, st, none)
  else (pwd, st, none)

/-- `writeModContentToModFile` (lines 210–212). -/
def writeModContentToModFile (st : St) (path modContent : String) : St :=
  (st.fsWrite path modContent).emit (.writeFile path modContent)

/-- `getModPathInTemp` (lines 214–222): uppercase-decode the module part of
the id, swap the first `':'` for `'@'` and join under the temp dir. -/
def PackageWithDeps.getModPathInTemp (pwd : PackageWithDeps)
    (tempDir : String) : String :=
  let moduleInfo := strSplit pwd.Dependency.id ':'
  let moduleInfo :=
    match moduleInfo with
    | [] => []
    | m :: rest => replaceExclamationMarkWithUpperCase m :: rest
  let moduleId := strJoin ":" moduleInfo
  let modulePath := replaceFirstColonWithAt moduleId
  tempDir ++ "/" ++ modulePath ++ "/" ++ "go.mod"

/-- `getModPathAndUnzipDependency` (lines 177–189): unset `GOPROXY`
(`os.Unsetenv` is modelled as infallible), unzip the archive into temp and
compute the mod-file path.  On an unzip error, return `("" , error)`. -/
def getModPathAndUnzipDependency (env : Env) (pwd : PackageWithDeps)
    (st : St) : St × String × Option String :=
  let st := ({ st with goproxySet := false }).emit .unsetGoproxy
  let st := st.emit (.unzip pwd.Dependency.zipPath)
  if env.unzipOk pwd.Dependency.zipPath then
    let tempDir := env.tempDirOf pwd.Dependency.zipPath
    let path := pwd.getModPathInTemp tempDir
    let st :=
      match env.archiveMod pwd.Dependency.zipPath with
      | some c => st.fsWrite path c
      | none => st
    (st, path, none)
  else
    (st, "", some "unzip failed")

/-- `useCachedMod` (lines 164–175): write the in-memory mod to the
workspace, change directory to it (returning the error on failure) and
remove the inherited `go.sum`. -/
def useCachedMod (env : Env) (pwd : PackageWithDeps) (st : St)
    (path : String) : St × Option String :=
  let st := writeModContentToModFile st path pwd.Dependency.modContent
  if env.chdirOk (dirOf path) then
    let st := ({ st with cwd := dirOf path }).emit (.chdir (dirOf path))
    let st := st.emit (.removeGoSumEv path)
    (st, none)
  else (st, some "chdir failed")

/-- `prepareAndRunInit` (lines 191–208): change directory to the workspace,
delete a pre-existing mod file and run `go mod init` with the
uppercase-decoded module name and the edit message. -/
def prepareAndRunInit (env : Env) (pwd : PackageWithDeps) (st : St)
    (pathToModFile : String) : St × Option String :=
  if env.chdirOk (dirOf pathToModFile) then
    let st := ({ st with cwd := dirOf pathToModFile }).emit (.chdir (dirOf pathToModFile))
    let ex := (assocGet st.fs pathToModFile).isSome
    let st :=
      if ex then
        ({ st with fs := assocErase st.fs pathToModFile }).emit (.removeFile pathToModFile)
      else st
    let moduleInfo := strSplit pwd.Dependency.id ':'
    let name := replaceExclamationMarkWithUpperCase (moduleInfo.headD "")
    let st := st.emit (.goModInit name pwd.GoModEditMessage)
    if env.initOk name then
      (st.fsWrite pathToModFile (env.initContent name), none)
    else
      let st :=
        match env.initFailFile name with
        | some c => st.fsWrite pathToModFile c
        | none => st
      (st, some "init failed")
  else (st, some "chdir failed")

/-- `prepareUnpublishedDependency` (lines 144–162): run init; if it failed
and left no mod file, synthesise one from the stored content; then read the
file back (a failed read leaves Go's nil slice, i.e. empty content), record
the previous in-memory content as the pre-tidy snapshot and replace the
in-memory content with the file's.  Returns the snapshot. -/
def prepareUnpublishedDependency (env : Env) (pwd : PackageWithDeps)
    (st : St) (pathToModFile : String) : PackageWithDeps × St × String :=
  let (st, err) := prepareAndRunInit env pwd st pathToModFile
  let st :=
    match err with
    | some _ =>
      if (assocGet st.fs pathToModFile).isSome then st
      else writeModContentToModFile st pathToModFile pwd.Dependency.modContent
    | none => st
  let modContent := (assocGet st.fs pathToModFile).getD ""
  let st := st.emit (.readFile pathToModFile)
  let originalModContent := pwd.Dependency.modContent
  let pwd := { pwd with Dependency := { pwd.Dependency with modContent := modContent } }
  (pwd, st, originalModContent)

/-- `populateModWithTidy` (called at line 131): run `go mod tidy`; on
success the tool rewrites the workspace mod file.  The in-memory content is
not re-read by the source. -/
def populateModWithTidy (env : Env) (st : St) (path : String) :
    St × Option String :=
  let st := st.emit (.goModTidy path)
  if env.tidyOk path then (st.fsWrite path (env.tidyContent path), none)
  else (st, some "tidy failed")

/-- `runGoModGraph` (called at line 140): compute the dependency graph in
the current working directory. -/
def runGoModGraph (env : Env) (st : St) : St × List String × Option String :=
  let st := st.emit (.goModGraph st.cwd)
  match env.graph st.cwd with
  | .ok out => (st, out, none)
  | .error e => (st, [], some e)

/-- `createDependencyAndPrepareMod` (lines 104–142): unzip, reset the
revert flag, then either use the non-empty cached mod, or (empty mod)
bootstrap it — via init for an unpublished package, or verbatim from the
stored content for a published one — and run tidy if it is still empty,
recording the pre-tidy snapshot and the revert flag; finally compute the
graph.  Errors of the write at line 124 and of tidy are logged only. -/
def createDependencyAndPrepareMod (env : Env) (pwd : PackageWithDeps)
    (st : St) : PackageWithDeps × St × String × List String × Option String :=
  match getModPathAndUnzipDependency env pwd st with
  | (st, _, some e) => (pwd, st, "", [], some e)
  | (st, path, none) =>
    let pwd := { pwd with shouldRevertToEmptyMod := false }
    if pwd.PatternMatched pwd.regExp.GetNotEmptyModRegex then
      match useCachedMod env pwd st path with
      | (st, some e) => (pwd, st, path, [], some e)
      | (st, none) =>
        let (st, output, err) := runGoModGraph env st
        (pwd, st, path, output, err)
    else
      let published := st.mapGetD pwd.Dependency.id
      let (pwd, st, originalModContent) :=
        if !published then
          prepareUnpublishedDependency env pwd st path
        else
          let originalModContent := pwd.Dependency.modContent
          let st := writeModContentToModFile st path pwd.Dependency.modContent
          (pwd, st, originalModContent)
      let (pwd, st) :=
        if !pwd.PatternMatched pwd.regExp.GetNotEmptyModRegex then
          let (st, _) := populateModWithTidy env st path
          ({ pwd with shouldRevertToEmptyMod := true,
                      originalModContent := originalModContent }, st)
        else (pwd, st)
      let (st, output, err) := runGoModGraph env st
      (pwd, st, path, output, err)

/-- Modelled from the spec: `Package.prepareAndPublish` is declared in
another file of the `dependencies` package.  Per spec §4.3 step 12 it
submits the package content and final manifest to the artifact repository,
and per §7/§8 the shared counters record the outcome: a repository error is
counted as a failure, a successful publish as a success. -/
def Package.prepareAndPublish (env : Env) (p : Package) (st : St) :
    St × Option String :=
  let st := st.emit (.publish p.id p.modContent)
  match env.publishOk p.id with
  | none => (st.IncrementSuccess, none)
  | some e => (st.IncrementFailures, some e)

/-- `PackageWithDeps.prepareAndPublish` (lines 274–278): publish the
package, then mark its id `true` in the shared map, and return the publish
error. -/
def PackageWithDeps.prepareAndPublish (env : Env) (pwd : PackageWithDeps)
    (st : St) : St × Option String :=
  let (st, err) := Package.prepareAndPublish env pwd.Dependency st
  let st := (st.mapSet pwd.Dependency.id true).emit
    (.cacheWrite pwd.Dependency.id true)
  (st, err)

/-- One edge of `setTransitiveDependencies` (lines 282–324): split on `'@'`
(skipping malformed edges), skip ids already in the map, materialise a
package from the local cache / the Artifactory probe / an upstream
download (logging and skipping the edge on any error), and on success
append a child sharing the parent's matcher, cache path, tidy selector and
edit message, recording the id in the map with the probe result. -/
def setTransitiveStep (env : Env) (targetRepo : String)
    (pwd : PackageWithDeps) (acc : List PackageWithDeps × St)
    (transitiveDependency : String) : List PackageWithDeps × St :=
  let (dependencies, st) := acc
  match strSplit transitiveDependency '@' with
  | [modPath, modVersion] =>
    let name := getDependencyName modPath
    if (assocGet st.cache.depsMap (name ++ ":" ++ modVersion)).isNone then
      match env.createDependency pwd.cachePath name modVersion with
      | .error _ => (dependencies, st)
      | .ok dep0 =>
        match env.existsInArtifactory modPath modVersion targetRepo with
        | .error _ => (dependencies, st)
        | .ok downloadedFromArtifactory =>
          let depRes : Except String (Option (String × String)) :=
            match dep0 with
            | none => env.downloadDep name modVersion
            | some d => .ok (some d)
          match depRes with
          | .error _ => (dependencies, st)
          | .ok none => (dependencies, st)
          | .ok (some (depMod, depZip)) =>
            let dep : Package :=
              { id := name ++ ":" ++ modVersion, modContent := depMod,
                zipPath := depZip }
            let depsWithTrans : PackageWithDeps :=
              { Dependency := dep, regExp := pwd.regExp,
                cachePath := pwd.cachePath, TidyEnum := pwd.TidyEnum,
                GoModEditMessage := pwd.GoModEditMessage }
            let st := (st.mapSet (name ++ ":" ++ modVersion)
                downloadedFromArtifactory).emit
              (.cacheWrite (name ++ ":" ++ modVersion) downloadedFromArtifactory)
            (dependencies ++ [depsWithTrans], st)
    else (dependencies, st)
  | _ => (dependencies, st)

/-- `setTransitiveDependencies` (lines 280–327): fold `setTransitiveStep`
over the graph edges; the resulting list becomes
`pwd.transitiveDependencies`.  (The Go `map[string]bool` iteration order is
embedded as the list order.) -/
def setTransitiveDependencies (env : Env) (targetRepo : String)
    (pwd : PackageWithDeps) (st : St) (graphDependencies : List String) :
    List PackageWithDeps × St :=
  graphDependencies.foldl (setTransitiveStep env targetRepo pwd) ([], st)

/-- The on-disk layout of the local module cache used by
`writeModContentToGoCache` (lines 330–332):
`cachePath/<module path>/@v/<version>.mod`. -/
def goModCachePath (cachePath id : String) : String :=
  let moduleAndVersion := strSplit id ':'
  let pathToModule := strSplit (moduleAndVersion.headD "") '/'
  cachePath ++ "/" ++ strJoin "/" pathToModule ++ "/@v/" ++
    (moduleAndVersion.getD 1 "") ++ ".mod"

/-- `writeModContentToGoCache` (lines 329–335): write the in-memory mod
content at `cachePath/<module path>/@v/<version>.mod`. -/
def writeModContentToGoCache (pwd : PackageWithDeps) (st : St) :
    St × Option String :=
  (writeModContentToModFile st (goModCachePath pwd.cachePath pwd.Dependency.id)
    pwd.Dependency.modContent, none)

/-- The loop body of `populateTransitive` (lines 340–349): recurse into a
child not yet marked published, otherwise increment the success counter and
skip it. -/
def populateTransitiveVisit
    (recurse : PackageWithDeps → St → PackageWithDeps × St × Option String)
    (st : St) (transitiveDep : PackageWithDeps) : St :=
  if !(st.mapGetD transitiveDep.Dependency.id) then
    (recurse transitiveDep st).2.1
  else
    (st.IncrementSuccess).emit (.skipPublished transitiveDep.Dependency.id)

/-- `populateTransitive` (lines 338–350): add the number of children to the
total counter, then visit each child in order. -/
def populateTransitive
    (recurse : PackageWithDeps → St → PackageWithDeps × St × Option String)
    (st : St) (transitiveDependencies : List PackageWithDeps) : St :=
  let st := st.IncrementTotal transitiveDependencies.length
  transitiveDependencies.foldl (populateTransitiveVisit recurse) st

/-- Lines 226–233 of `publishDependencyAndPopulateTransitive`: when the
graph is non-empty, displace `go.sum`, expand the graph into children and
restore the sum file. -/
def expandGraphStage (env : Env) (targetRepo : String)
    (pwd : PackageWithDeps) (st : St) (pathToModFile : String)
    (graphDependencies : List String) : List PackageWithDeps × St :=
  if graphDependencies.length > 0 then
    let sumFileContent := env.sumContent (dirOf pathToModFile)
    let sumFileStat := env.sumStat (dirOf pathToModFile)
    let st := st.emit (.getSum (dirOf pathToModFile))
    let r := setTransitiveDependencies env targetRepo pwd st graphDependencies
    let st :=
      if sumFileContent ≠ "" ∧ sumFileStat then
        (r.2).emit (.restoreSum (dirOf pathToModFile))
      else r.2
    (r.1, st)
  else ([], st)

/-- Lines 235–239: persist the mod content to the local module cache when
the package is unpublished and its content is non-empty or bears the edit
marker. -/
def goCachePersistStage (pwd : PackageWithDeps) (published : Bool)
    (st : St) : St :=
  if !published ∧ (pwd.PatternMatched pwd.regExp.GetNotEmptyModRegex ∨
      pwd.PatternMatched pwd.regExp.GetGeneratedBy) then
    (writeModContentToGoCache pwd st).1
  else st

/-- Lines 246–256: when unpublished with the revert flag set, prepend the
edit message and a blank line to the pre-tidy snapshot unless it already
matches the generated-by pattern, write it to the workspace mod file and
the in-memory content, and persist it to the local module cache. -/
def revertStage (pwd : PackageWithDeps) (published : Bool) (st : St)
    (pathToModFile : String) : PackageWithDeps × St :=
  if !published ∧ pwd.shouldRevertToEmptyMod then
    let originalModContent :=
      if pwd.regExp.GetGeneratedBy pwd.originalModContent then
        pwd.originalModContent
      else pwd.GoModEditMessage ++ "\n\n" ++ pwd.originalModContent
    let st := writeModContentToModFile st pathToModFile originalModContent
    let pwd := { pwd with
      originalModContent := originalModContent,
      Dependency := { pwd.Dependency with modContent := originalModContent } }
    let st := (writeModContentToGoCache pwd st).1
    (pwd, st)
  else (pwd, st)

/-- Lines 258–261: publish the package when unpublished. -/
def publishStage (env : Env) (pwd : PackageWithDeps) (published : Bool)
    (st : St) : St :=
  if !published then (pwd.prepareAndPublish env st).1 else st

/-- `publishDependencyAndPopulateTransitive` with the `os.RemoveAll`
cleanup split off (lines 224–261), as the composition of the four stages
around the recursion into the children. -/
def publishDepCore
    (recurse : PackageWithDeps → St → PackageWithDeps × St × Option String)
    (env : Env) (targetRepo : String) (pwd : PackageWithDeps) (st : St)
    (pathToModFile : String) (graphDependencies : List String) :
    PackageWithDeps × St :=
  let r := expandGraphStage env targetRepo pwd st pathToModFile graphDependencies
  let transitiveDependencies := r.1
  let st := r.2
  let published := st.mapGetD pwd.Dependency.id
  let st := goCachePersistStage pwd published st
  let st :=
    if transitiveDependencies.isEmpty then st
    else populateTransitive recurse st transitiveDependencies
  let r2 := revertStage pwd published st pathToModFile
  let st := publishStage env r2.1 published r2.2
  (r2.1, st)

/-- The `os.RemoveAll` cleanup at lines 263–267: always attempted, its
failure only logged; on success the temp directory's files leave the
file-system model. -/
def removeAllStep (env : Env) (st : St) (pathToModFile : String) : St :=
  let st := st.emit (.removeAll (dirOf pathToModFile))
  if env.removeAllOk (dirOf pathToModFile) then
    let fs := st.fs.filter (fun p => !(strPrefixOf (dirOf pathToModFile) p.1))
    { st with fs := fs }
  else st

/-- `publishDependencyAndPopulateTransitive` (lines 224–270): the core
followed by cleanup; always returns a nil error. -/
def publishDependencyAndPopulateTransitive
    (recurse : PackageWithDeps → St → PackageWithDeps × St × Option String)
    (env : Env) (targetRepo : String) (pwd : PackageWithDeps) (st : St)
    (pathToModFile : String) (graphDependencies : List String) :
    PackageWithDeps × St × Option String :=
  let r :=
    publishDepCore recurse env targetRepo pwd st pathToModFile graphDependencies
  (r.1, removeAllStep env r.2 pathToModFile, none)

/-- `PopulateModAndPublish` (lines 43–66), fuel-indexed: log the start;
when the id is already marked published, refresh the mod content from
Artifactory (the read error is logged); create the workspace and prepare
the mod (errors logged); then publish and populate the transitive
dependencies; always return a nil error.  Exhausted fuel sets
`St.fuelOut`. -/
def PopulateModAndPublish (fuel : Nat) (env : Env) (targetRepo : String)
    (pwd : PackageWithDeps) (st : St) : PackageWithDeps × St × Option String :=
  match fuel with
  | 0 => (pwd, { st with fuelOut := true }, none)
  | n + 1 =>
    let st := st.emit (.startWork pwd.Dependency.id)
    let published := st.mapGetD pwd.Dependency.id
    let (pwd, st) :=
      if published then
        let moduleAndVersion := strSplit pwd.Dependency.id ':'
        let path := env.downloadModPath (moduleAndVersion.headD "")
          (moduleAndVersion.getD 1 "")
        let st := st.emit (.downloadModFromArt pwd.Dependency.id)
        let (pwd, st, _) := updateModContent env pwd st path
        (pwd, st)
      else (pwd, st)
    let (pwd, st, path, output, _) := createDependencyAndPrepareMod env pwd st
    publishDependencyAndPopulateTransitive
      (fun p s => PopulateModAndPublish n env targetRepo p s)
      env targetRepo pwd st path output

/-! ## Concrete fixtures

A small concrete environment and packages, used by the witness and
counterexample theorems to evaluate the embedding on closed inputs. -/

/-- A concrete matcher pair: a line is "not empty" when it is non-blank,
and the generated-by marker is the literal edit message. -/
def testRegExp : RegExp where
  notEmptyModRegex := fun s => s ≠ ""
  generatedBy := fun s => strInfixOf "// Generated by JFrog" s

/-- A benign concrete environment: unzip/chdir/init/tidy succeed, archives
carry no `go.mod`, the graph is empty, the local cache is empty, probes
answer `false`, downloads succeed and publishing succeeds. -/
def baseEnv : Env where
  unzipOk := fun _ => true
  tempDirOf := fun _ => "/tmp"
  archiveMod := fun _ => none
  chdirOk := fun _ => true
  downloadModPath := fun _ _ => ""
  readArtifactoryMod := fun _ => .error "read failed"
  initOk := fun _ => true
  initContent := fun name => "module " ++ name ++ "\n\n// Generated by JFrog"
  initFailFile := fun _ => none
  tidyOk := fun _ => true
  tidyContent := fun _ => "module tidied\nrequire other v1.0.0"
  graph := fun _ => .ok []
  sumContent := fun _ => ""
  sumStat := fun _ => false
  createDependency := fun _ _ _ => .ok none
  existsInArtifactory := fun _ _ _ => .ok false
  downloadDep := fun name ver =>
    .ok (some ("", name ++ "@" ++ ver ++ ".zip"))
  publishOk := fun _ => none
  removeAllOk := fun _ => true

/-- A concrete package with an empty manifest. -/
def pkgFoo : Package where
  id := "example.com/foo:v1.0.0"
  modContent := ""
  zipPath := "foo.zip"

/-- A concrete resolver node over `pkgFoo`. -/
def pwdFoo : PackageWithDeps where
  Dependency := pkgFoo
  regExp := testRegExp
  cachePath := "/gocache"
  GoModEditMessage := "// Generated by JFrog"

/-- The empty starting state. -/
def st0 : St := {}

/-- A starting state in which `pkgFoo` is already marked published. -/
def stFooPublished : St :=
  { cache := { depsMap := [("example.com/foo:v1.0.0", true)] } }

/-! ## Basic lemmas about the state operations -/

@[simp] theorem emit_cache (st : St) (e : Ev) : (st.emit e).cache = st.cache := rfl

@[simp] theorem emit_fuelOut (st : St) (e : Ev) : (st.emit e).fuelOut = st.fuelOut := rfl

@[simp] theorem emit_cwd (st : St) (e : Ev) : (st.emit e).cwd = st.cwd := rfl

@[simp] theorem emit_goproxySet (st : St) (e : Ev) :
    (st.emit e).goproxySet = st.goproxySet := rfl

@[simp] theorem emit_trace (st : St) (e : Ev) :
    (st.emit e).trace = st.trace ++ [e] := rfl

@[simp] theorem fsWrite_cache (st : St) (p c : String) :
    (st.fsWrite p c).cache = st.cache := rfl

@[simp] theorem fsWrite_fuelOut (st : St) (p c : String) :
    (st.fsWrite p c).fuelOut = st.fuelOut := rfl

@[simp] theorem fsWrite_cwd (st : St) (p c : String) :
    (st.fsWrite p c).cwd = st.cwd := rfl

@[simp] theorem fsWrite_goproxySet (st : St) (p c : String) :
    (st.fsWrite p c).goproxySet = st.goproxySet := rfl

@[simp] theorem fsWrite_trace (st : St) (p c : String) :
    (st.fsWrite p c).trace = st.trace := rfl

@[simp] theorem IncrementTotal_depsMap (st : St) (n : Nat) :
    (st.IncrementTotal n).cache.depsMap = st.cache.depsMap := rfl

@[simp] theorem IncrementSuccess_depsMap (st : St) :
    st.IncrementSuccess.cache.depsMap = st.cache.depsMap := rfl

@[simp] theorem IncrementFailures_depsMap (st : St) :
    st.IncrementFailures.cache.depsMap = st.cache.depsMap := rfl

@[simp] theorem IncrementTotal_fuelOut (st : St) (n : Nat) :
    (st.IncrementTotal n).fuelOut = st.fuelOut := rfl

@[simp] theorem IncrementSuccess_fuelOut (st : St) :
    st.IncrementSuccess.fuelOut = st.fuelOut := rfl

@[simp] theorem IncrementFailures_fuelOut (st : St) :
    st.IncrementFailures.fuelOut = st.fuelOut := rfl

@[simp] theorem mapSet_depsMap (st : St) (k : String) (v : Bool) :
    (st.mapSet k v).cache.depsMap = assocSet st.cache.depsMap k v := rfl

@[simp] theorem mapSet_fuelOut (st : St) (k : String) (v : Bool) :
    (st.mapSet k v).fuelOut = st.fuelOut := rfl

@[simp] theorem writeModContentToModFile_cache (st : St) (p c : String) :
    (writeModContentToModFile st p c).cache = st.cache := rfl

@[simp] theorem writeModContentToModFile_fuelOut (st : St) (p c : String) :
    (writeModContentToModFile st p c).fuelOut = st.fuelOut := rfl

@[simp] theorem writeModContentToModFile_cwd (st : St) (p c : String) :
    (writeModContentToModFile st p c).cwd = st.cwd := rfl

@[simp] theorem writeModContentToModFile_trace (st : St) (p c : String) :
    (writeModContentToModFile st p c).trace = st.trace ++ [.writeFile p c] := rfl

/-! ## Association-list lemmas -/

theorem assocGet_nil {α : Type} (k : String) :
    assocGet ([] : List (String × α)) k = none := rfl

theorem assocGet_cons {α : Type} (k₀ : String) (v₀ : α)
    (rest : List (String × α)) (k : String) :
    assocGet ((k₀, v₀) :: rest) k =
      if k₀ = k then some v₀ else assocGet rest k := by
  simp only [assocGet, List.find?]
  by_cases h : k₀ = k
  · simp [h]
  · rw [show (k₀ == k) = false by simpa using h, if_neg h]

theorem assocGet_set_self {α : Type} (m : List (String × α)) (k : String)
    (v : α) : assocGet (assocSet m k v) k = some v := by
  induction m with
  | nil => simp [assocGet_nil, assocSet, assocGet_cons]
  | cons p rest ih =>
    obtain ⟨k', v'⟩ := p
    by_cases h : k' = k
    · simp [assocSet, h, assocGet_cons]
    · simp only [assocSet]
      rw [if_neg (by simpa using h), assocGet_cons, if_neg h]
      exact ih

theorem assocGet_set_ne {α : Type} (m : List (String × α)) (k k' : String)
    (v : α) (h : k' ≠ k) :
    assocGet (assocSet m k v) k' = assocGet m k' := by
  induction m with
  | nil => simp [assocGet_nil, assocSet, assocGet_cons, Ne.symm h]
  | cons p rest ih =>
    obtain ⟨k₀, v₀⟩ := p
    by_cases h₀ : k₀ = k
    · subst h₀
      rw [show assocSet ((k₀, v₀) :: rest) k₀ v = (k₀, v) :: rest by
        simp [assocSet]]
      rw [assocGet_cons, assocGet_cons, if_neg (Ne.symm h),
        if_neg (Ne.symm h)]
    · simp only [assocSet]
      rw [if_neg (by simpa using h₀), assocGet_cons, assocGet_cons]
      by_cases h₁ : k₀ = k'
      · simp [h₁]
      · rw [if_neg h₁, if_neg h₁]
        exact ih

/-- After an overwrite, a key is present iff it is the written key or was
present before. -/
theorem assocGet_set_isSome {α : Type} (m : List (String × α)) (k k' : String)
    (v : α) (h : (assocGet m k').isSome) :
    (assocGet (assocSet m k v) k').isSome := by
  by_cases hk : k' = k
  · subst hk; simp [assocGet_set_self]
  · rwa [assocGet_set_ne m k k' v hk]

/-! ## Per-function frame lemmas

Which parts of the state each translated function can and cannot touch. -/

theorem getModPathAndUnzipDependency_cache (env : Env) (pwd : PackageWithDeps)
    (st : St) : (getModPathAndUnzipDependency env pwd st).1.cache = st.cache := by
  simp only [getModPathAndUnzipDependency]
  repeat' split
  all_goals simp

theorem getModPathAndUnzipDependency_fuelOut (env : Env)
    (pwd : PackageWithDeps) (st : St) :
    (getModPathAndUnzipDependency env pwd st).1.fuelOut = st.fuelOut := by
  simp only [getModPathAndUnzipDependency]
  repeat' split
  all_goals simp

theorem useCachedMod_cache (env : Env) (pwd : PackageWithDeps) (st : St)
    (path : String) : (useCachedMod env pwd st path).1.cache = st.cache := by
  simp only [useCachedMod]
  repeat' split
  all_goals simp

theorem useCachedMod_fuelOut (env : Env) (pwd : PackageWithDeps) (st : St)
    (path : String) : (useCachedMod env pwd st path).1.fuelOut = st.fuelOut := by
  simp only [useCachedMod]
  repeat' split
  all_goals simp

theorem prepareAndRunInit_cache (env : Env) (pwd : PackageWithDeps) (st : St)
    (path : String) : (prepareAndRunInit env pwd st path).1.cache = st.cache := by
  simp only [prepareAndRunInit]
  repeat' split
  all_goals simp

theorem prepareAndRunInit_fuelOut (env : Env) (pwd : PackageWithDeps)
    (st : St) (path : String) :
    (prepareAndRunInit env pwd st path).1.fuelOut = st.fuelOut := by
  simp only [prepareAndRunInit]
  repeat' split
  all_goals simp

theorem prepareUnpublishedDependency_cache (env : Env)
    (pwd : PackageWithDeps) (st : St) (path : String) :
    (prepareUnpublishedDependency env pwd st path).2.1.cache = st.cache := by
  simp only [prepareUnpublishedDependency]
  rcases h : prepareAndRunInit env pwd st path with ⟨st', err⟩
  have hc : st'.cache = st.cache := by
    simpa [h] using prepareAndRunInit_cache env pwd st path
  rcases err with _ | e
  all_goals repeat' split
  all_goals simp [hc]

theorem prepareUnpublishedDependency_fuelOut (env : Env)
    (pwd : PackageWithDeps) (st : St) (path : String) :
    (prepareUnpublishedDependency env pwd st path).2.1.fuelOut = st.fuelOut := by
  simp only [prepareUnpublishedDependency]
  rcases h : prepareAndRunInit env pwd st path with ⟨st', err⟩
  have hc : st'.fuelOut = st.fuelOut := by
    simpa [h] using prepareAndRunInit_fuelOut env pwd st path
  rcases err with _ | e
  all_goals repeat' split
  all_goals simp [hc]

theorem populateModWithTidy_cache (env : Env) (st : St) (path : String) :
    (populateModWithTidy env st path).1.cache = st.cache := by
  simp only [populateModWithTidy]
  repeat' split
  all_goals simp

theorem populateModWithTidy_fuelOut (env : Env) (st : St) (path : String) :
    (populateModWithTidy env st path).1.fuelOut = st.fuelOut := by
  simp only [populateModWithTidy]
  repeat' split
  all_goals simp

theorem runGoModGraph_cache (env : Env) (st : St) :
    (runGoModGraph env st).1.cache = st.cache := by
  simp only [runGoModGraph]
  repeat' split
  all_goals simp

theorem runGoModGraph_fuelOut (env : Env) (st : St) :
    (runGoModGraph env st).1.fuelOut = st.fuelOut := by
  simp only [runGoModGraph]
  repeat' split
  all_goals simp

theorem createDependencyAndPrepareMod_cache (env : Env)
    (pwd : PackageWithDeps) (st : St) :
    (createDependencyAndPrepareMod env pwd st).2.1.cache = st.cache := by
  simp only [createDependencyAndPrepareMod]
  rcases h : getModPathAndUnzipDependency env pwd st with ⟨st₁, path, err⟩
  have h₁ : st₁.cache = st.cache := by
    simpa [h] using getModPathAndUnzipDependency_cache env pwd st
  rcases err with _ | e
  · simp only []
    split
    · rcases h₂ : useCachedMod env
        { pwd with shouldRevertToEmptyMod := false } st₁ path with ⟨st₂, err₂⟩
      have hc₂ : st₂.cache = st₁.cache := by
        simpa [h₂] using useCachedMod_cache env
          { pwd with shouldRevertToEmptyMod := false } st₁ path
      rcases err₂ with _ | e₂
      · rcases h₃ : runGoModGraph env st₂ with ⟨st₃, out, err₃⟩
        have hc₃ : st₃.cache = st₂.cache := by
          simpa [h₃] using runGoModGraph_cache env st₂
        simp [h₃, hc₃, hc₂, h₁]
      · simp [hc₂, h₁]
    · split
      · rcases h₂ : prepareUnpublishedDependency env
          { pwd with shouldRevertToEmptyMod := false } st₁ path with ⟨pwd₂, st₂, orig⟩
        have hc₂ : st₂.cache = st₁.cache := by
          simpa [h₂] using prepareUnpublishedDependency_cache env
            { pwd with shouldRevertToEmptyMod := false } st₁ path
        simp only []
        split
        · rcases h₃ : populateModWithTidy env st₂ path with ⟨st₃, err₃⟩
          have hc₃ : st₃.cache = st₂.cache := by
            simpa [h₃] using populateModWithTidy_cache env st₂ path
          rcases h₄ : runGoModGraph env st₃ with ⟨st₄, out, err₄⟩
          have hc₄ : st₄.cache = st₃.cache := by
            simpa [h₄] using runGoModGraph_cache env st₃
          simp [h₃, h₄, hc₄, hc₃, hc₂, h₁]
        · rcases h₄ : runGoModGraph env st₂ with ⟨st₄, out, err₄⟩
          have hc₄ : st₄.cache = st₂.cache := by
            simpa [h₄] using runGoModGraph_cache env st₂
          simp [h₄, hc₄, hc₂, h₁]
      · simp only []
        split
        · rcases h₃ : populateModWithTidy env
            (writeModContentToModFile st₁ path pwd.Dependency.modContent) path
            with ⟨st₃, err₃⟩
          have hc₃ : st₃.cache = st₁.cache := by
            have := populateModWithTidy_cache env
              (writeModContentToModFile st₁ path pwd.Dependency.modContent) path
            simpa [h₃] using this
          rcases h₄ : runGoModGraph env st₃ with ⟨st₄, out, err₄⟩
          have hc₄ : st₄.cache = st₃.cache := by
            simpa [h₄] using runGoModGraph_cache env st₃
          simp [h₃, h₄, hc₄, hc₃, h₁]
        · rcases h₄ : runGoModGraph env
            (writeModContentToModFile st₁ path pwd.Dependency.modContent)
            with ⟨st₄, out, err₄⟩
          have hc₄ : st₄.cache = st₁.cache := by
            have := runGoModGraph_cache env
              (writeModContentToModFile st₁ path pwd.Dependency.modContent)
            simpa [h₄] using this
          simp [h₄, hc₄, h₁]
  · simp [h₁]

@[simp] theorem writeModContentToModFile_goproxySet (st : St) (p c : String) :
    (writeModContentToModFile st p c).goproxySet = st.goproxySet := rfl

theorem useCachedMod_goproxySet (env : Env) (pwd : PackageWithDeps) (st : St)
    (path : String) :
    (useCachedMod env pwd st path).1.goproxySet = st.goproxySet := by
  simp only [useCachedMod]
  repeat' split
  all_goals simp

theorem prepareAndRunInit_goproxySet (env : Env) (pwd : PackageWithDeps)
    (st : St) (path : String) :
    (prepareAndRunInit env pwd st path).1.goproxySet = st.goproxySet := by
  simp only [prepareAndRunInit]
  repeat' split
  all_goals simp

theorem prepareUnpublishedDependency_goproxySet (env : Env)
    (pwd : PackageWithDeps) (st : St) (path : String) :
    (prepareUnpublishedDependency env pwd st path).2.1.goproxySet =
      st.goproxySet := by
  simp only [prepareUnpublishedDependency]
  rcases h : prepareAndRunInit env pwd st path with ⟨st', err⟩
  have hc : st'.goproxySet = st.goproxySet := by
    simpa [h] using prepareAndRunInit_goproxySet env pwd st path
  rcases err with _ | e
  all_goals repeat' split
  all_goals simp [hc]

theorem populateModWithTidy_goproxySet (env : Env) (st : St) (path : String) :
    (populateModWithTidy env st path).1.goproxySet = st.goproxySet := by
  simp only [populateModWithTidy]
  repeat' split
  all_goals simp

theorem runGoModGraph_goproxySet (env : Env) (st : St) :
    (runGoModGraph env st).1.goproxySet = st.goproxySet := by
  simp only [runGoModGraph]
  repeat' split
  all_goals simp

/-- Claim C10's key primitive fact: `getModPathAndUnzipDependency` leaves
`GOPROXY` unset on every path, including the unzip-failure path. -/
theorem getModPathAndUnzipDependency_goproxySet (env : Env)
    (pwd : PackageWithDeps) (st : St) :
    (getModPathAndUnzipDependency env pwd st).1.goproxySet = false := by
  simp only [getModPathAndUnzipDependency]
  repeat' split
  all_goals simp

theorem createDependencyAndPrepareMod_fuelOut (env : Env)
    (pwd : PackageWithDeps) (st : St) :
    (createDependencyAndPrepareMod env pwd st).2.1.fuelOut = st.fuelOut := by
  simp only [createDependencyAndPrepareMod]
  rcases h : getModPathAndUnzipDependency env pwd st with ⟨st₁, path, err⟩
  have h₁ : st₁.fuelOut = st.fuelOut := by
    simpa [h] using getModPathAndUnzipDependency_fuelOut env pwd st
  rcases err with _ | e
  · simp only []
    split
    · rcases h₂ : useCachedMod env
        { pwd with shouldRevertToEmptyMod := false } st₁ path with ⟨st₂, err₂⟩
      have hc₂ : st₂.fuelOut = st₁.fuelOut := by
        simpa [h₂] using useCachedMod_fuelOut env
          { pwd with shouldRevertToEmptyMod := false } st₁ path
      rcases err₂ with _ | e₂
      · rcases h₃ : runGoModGraph env st₂ with ⟨st₃, out, err₃⟩
        have hc₃ : st₃.fuelOut = st₂.fuelOut := by
          simpa [h₃] using runGoModGraph_fuelOut env st₂
        simp [h₃, hc₃, hc₂, h₁]
      · simp [hc₂, h₁]
    · split
      · rcases h₂ : prepareUnpublishedDependency env
          { pwd with shouldRevertToEmptyMod := false } st₁ path with ⟨pwd₂, st₂, orig⟩
        have hc₂ : st₂.fuelOut = st₁.fuelOut := by
          simpa [h₂] using prepareUnpublishedDependency_fuelOut env
            { pwd with shouldRevertToEmptyMod := false } st₁ path
        simp only []
        split
        · rcases h₃ : populateModWithTidy env st₂ path with ⟨st₃, err₃⟩
          have hc₃ : st₃.fuelOut = st₂.fuelOut := by
            simpa [h₃] using populateModWithTidy_fuelOut env st₂ path
          rcases h₄ : runGoModGraph env st₃ with ⟨st₄, out, err₄⟩
          have hc₄ : st₄.fuelOut = st₃.fuelOut := by
            simpa [h₄] using runGoModGraph_fuelOut env st₃
          simp [h₃, h₄, hc₄, hc₃, hc₂, h₁]
        · rcases h₄ : runGoModGraph env st₂ with ⟨st₄, out, err₄⟩
          have hc₄ : st₄.fuelOut = st₂.fuelOut := by
            simpa [h₄] using runGoModGraph_fuelOut env st₂
          simp [h₄, hc₄, hc₂, h₁]
      · simp only []
        split
        · rcases h₃ : populateModWithTidy env
            (writeModContentToModFile st₁ path pwd.Dependency.modContent) path
            with ⟨st₃, err₃⟩
          have hc₃ : st₃.fuelOut = st₁.fuelOut := by
            have := populateModWithTidy_fuelOut env
              (writeModContentToModFile st₁ path pwd.Dependency.modContent) path
            simpa [h₃] using this
          rcases h₄ : runGoModGraph env st₃ with ⟨st₄, out, err₄⟩
          have hc₄ : st₄.fuelOut = st₃.fuelOut := by
            simpa [h₄] using runGoModGraph_fuelOut env st₃
          simp [h₃, h₄, hc₄, hc₃, h₁]
        · rcases h₄ : runGoModGraph env
            (writeModContentToModFile st₁ path pwd.Dependency.modContent)
            with ⟨st₄, out, err₄⟩
          have hc₄ : st₄.fuelOut = st₁.fuelOut := by
            have := runGoModGraph_fuelOut env
              (writeModContentToModFile st₁ path pwd.Dependency.modContent)
            simpa [h₄] using this
          simp [h₄, hc₄, h₁]
  · simp [h₁]

theorem createDependencyAndPrepareMod_goproxySet (env : Env)
    (pwd : PackageWithDeps) (st : St) :
    (createDependencyAndPrepareMod env pwd st).2.1.goproxySet = false := by
  simp only [createDependencyAndPrepareMod]
  rcases h : getModPathAndUnzipDependency env pwd st with ⟨st₁, path, err⟩
  have h₁ : st₁.goproxySet = false := by
    simpa [h] using getModPathAndUnzipDependency_goproxySet env pwd st
  rcases err with _ | e
  · simp only []
    split
    · rcases h₂ : useCachedMod env
        { pwd with shouldRevertToEmptyMod := false } st₁ path with ⟨st₂, err₂⟩
      have hc₂ : st₂.goproxySet = st₁.goproxySet := by
        simpa [h₂] using useCachedMod_goproxySet env
          { pwd with shouldRevertToEmptyMod := false } st₁ path
      rcases err₂ with _ | e₂
      · rcases h₃ : runGoModGraph env st₂ with ⟨st₃, out, err₃⟩
        have hc₃ : st₃.goproxySet = st₂.goproxySet := by
          simpa [h₃] using runGoModGraph_goproxySet env st₂
        simp [h₃, hc₃, hc₂, h₁]
      · simp [hc₂, h₁]
    · split
      · rcases h₂ : prepareUnpublishedDependency env
          { pwd with shouldRevertToEmptyMod := false } st₁ path with ⟨pwd₂, st₂, orig⟩
        have hc₂ : st₂.goproxySet = st₁.goproxySet := by
          simpa [h₂] using prepareUnpublishedDependency_goproxySet env
            { pwd with shouldRevertToEmptyMod := false } st₁ path
        simp only []
        split
        · rcases h₃ : populateModWithTidy env st₂ path with ⟨st₃, err₃⟩
          have hc₃ : st₃.goproxySet = st₂.goproxySet := by
            simpa [h₃] using populateModWithTidy_goproxySet env st₂ path
          rcases h₄ : runGoModGraph env st₃ with ⟨st₄, out, err₄⟩
          have hc₄ : st₄.goproxySet = st₃.goproxySet := by
            simpa [h₄] using runGoModGraph_goproxySet env st₃
          simp [h₃, h₄, hc₄, hc₃, hc₂, h₁]
        · rcases h₄ : runGoModGraph env st₂ with ⟨st₄, out, err₄⟩
          have hc₄ : st₄.goproxySet = st₂.goproxySet := by
            simpa [h₄] using runGoModGraph_goproxySet env st₂
          simp [h₄, hc₄, hc₂, h₁]
      · simp only []
        split
        · rcases h₃ : populateModWithTidy env
            (writeModContentToModFile st₁ path pwd.Dependency.modContent) path
            with ⟨st₃, err₃⟩
          have hc₃ : st₃.goproxySet = st₁.goproxySet := by
            have := populateModWithTidy_goproxySet env
              (writeModContentToModFile st₁ path pwd.Dependency.modContent) path
            simpa [h₃] using this
          rcases h₄ : runGoModGraph env st₃ with ⟨st₄, out, err₄⟩
          have hc₄ : st₄.goproxySet = st₃.goproxySet := by
            simpa [h₄] using runGoModGraph_goproxySet env st₃
          simp [h₃, h₄, hc₄, hc₃, h₁]
        · rcases h₄ : runGoModGraph env
            (writeModContentToModFile st₁ path pwd.Dependency.modContent)
            with ⟨st₄, out, err₄⟩
          have hc₄ : st₄.goproxySet = st₁.goproxySet := by
            have := runGoModGraph_goproxySet env
              (writeModContentToModFile st₁ path pwd.Dependency.modContent)
            simpa [h₄] using this
          simp [h₄, hc₄, h₁]
  · simp [h₁]

@[simp] theorem IncrementTotal_total (st : St) (n : Nat) :
    (st.IncrementTotal n).cache.total = st.cache.total + n := rfl

@[simp] theorem IncrementTotal_success (st : St) (n : Nat) :
    (st.IncrementTotal n).cache.success = st.cache.success := rfl

@[simp] theorem IncrementTotal_failures (st : St) (n : Nat) :
    (st.IncrementTotal n).cache.failures = st.cache.failures := rfl

@[simp] theorem IncrementSuccess_total (st : St) :
    st.IncrementSuccess.cache.total = st.cache.total := rfl

@[simp] theorem IncrementSuccess_success (st : St) :
    st.IncrementSuccess.cache.success = st.cache.success + 1 := rfl

@[simp] theorem IncrementSuccess_failures (st : St) :
    st.IncrementSuccess.cache.failures = st.cache.failures := rfl

@[simp] theorem IncrementFailures_total (st : St) :
    st.IncrementFailures.cache.total = st.cache.total := rfl

@[simp] theorem IncrementFailures_success (st : St) :
    st.IncrementFailures.cache.success = st.cache.success := rfl

@[simp] theorem IncrementFailures_failures (st : St) :
    st.IncrementFailures.cache.failures = st.cache.failures + 1 := rfl

@[simp] theorem mapSet_total (st : St) (k : String) (v : Bool) :
    (st.mapSet k v).cache.total = st.cache.total := rfl

@[simp] theorem mapSet_success (st : St) (k : String) (v : Bool) :
    (st.mapSet k v).cache.success = st.cache.success := rfl

@[simp] theorem mapSet_failures (st : St) (k : String) (v : Bool) :
    (st.mapSet k v).cache.failures = st.cache.failures := rfl

@[simp] theorem mapSet_goproxySet (st : St) (k : String) (v : Bool) :
    (st.mapSet k v).goproxySet = st.goproxySet := rfl

@[simp] theorem mapSet_cwd (st : St) (k : String) (v : Bool) :
    (st.mapSet k v).cwd = st.cwd := rfl

@[simp] theorem IncrementTotal_goproxySet (st : St) (n : Nat) :
    (st.IncrementTotal n).goproxySet = st.goproxySet := rfl

@[simp] theorem IncrementSuccess_goproxySet (st : St) :
    st.IncrementSuccess.goproxySet = st.goproxySet := rfl

@[simp] theorem IncrementFailures_goproxySet (st : St) :
    st.IncrementFailures.goproxySet = st.goproxySet := rfl

@[simp] theorem IncrementTotal_trace (st : St) (n : Nat) :
    (st.IncrementTotal n).trace = st.trace := rfl

@[simp] theorem IncrementSuccess_trace (st : St) :
    st.IncrementSuccess.trace = st.trace := rfl

@[simp] theorem IncrementFailures_trace (st : St) :
    st.IncrementFailures.trace = st.trace := rfl

@[simp] theorem mapSet_trace (st : St) (k : String) (v : Bool) :
    (st.mapSet k v).trace = st.trace := rfl

theorem updateModContent_depsMap (env : Env) (pwd : PackageWithDeps)
    (st : St) (path : String) :
    (updateModContent env pwd st path).2.1.cache.depsMap =
      st.cache.depsMap := by
  simp only [updateModContent]
  repeat' split
  all_goals simp

theorem updateModContent_total (env : Env) (pwd : PackageWithDeps)
    (st : St) (path : String) :
    (updateModContent env pwd st path).2.1.cache.total = st.cache.total := by
  simp only [updateModContent]
  repeat' split
  all_goals simp

theorem updateModContent_success (env : Env) (pwd : PackageWithDeps)
    (st : St) (path : String) :
    (updateModContent env pwd st path).2.1.cache.success =
      st.cache.success := by
  simp only [updateModContent]
  repeat' split
  all_goals simp

theorem updateModContent_failures_ge (env : Env) (pwd : PackageWithDeps)
    (st : St) (path : String) :
    st.cache.failures ≤ (updateModContent env pwd st path).2.1.cache.failures := by
  simp only [updateModContent]
  repeat' split
  all_goals simp

theorem updateModContent_fuelOut (env : Env) (pwd : PackageWithDeps)
    (st : St) (path : String) :
    (updateModContent env pwd st path).2.1.fuelOut = st.fuelOut := by
  simp only [updateModContent]
  repeat' split
  all_goals simp

theorem updateModContent_goproxySet (env : Env) (pwd : PackageWithDeps)
    (st : St) (path : String) :
    (updateModContent env pwd st path).2.1.goproxySet = st.goproxySet := by
  simp only [updateModContent]
  repeat' split
  all_goals simp

theorem writeModContentToGoCache_cache (pwd : PackageWithDeps) (st : St) :
    (writeModContentToGoCache pwd st).1.cache = st.cache := by
  simp [writeModContentToGoCache]

theorem writeModContentToGoCache_fuelOut (pwd : PackageWithDeps) (st : St) :
    (writeModContentToGoCache pwd st).1.fuelOut = st.fuelOut := by
  simp [writeModContentToGoCache]

theorem writeModContentToGoCache_goproxySet (pwd : PackageWithDeps) (st : St) :
    (writeModContentToGoCache pwd st).1.goproxySet = st.goproxySet := by
  simp [writeModContentToGoCache]

theorem packagePrepareAndPublish_depsMap (env : Env) (p : Package) (st : St) :
    (Package.prepareAndPublish env p st).1.cache.depsMap =
      st.cache.depsMap := by
  simp only [Package.prepareAndPublish]
  repeat' split
  all_goals simp

theorem packagePrepareAndPublish_total (env : Env) (p : Package) (st : St) :
    (Package.prepareAndPublish env p st).1.cache.total = st.cache.total := by
  simp only [Package.prepareAndPublish]
  repeat' split
  all_goals simp

/-- A publish attempt books exactly one outcome: the success and failure
counters together grow by exactly one. -/
theorem packagePrepareAndPublish_outcome (env : Env) (p : Package) (st : St) :
    (Package.prepareAndPublish env p st).1.cache.success +
      (Package.prepareAndPublish env p st).1.cache.failures =
      st.cache.success + st.cache.failures + 1 := by
  simp only [Package.prepareAndPublish]
  repeat' split
  all_goals simp
  all_goals omega

theorem packagePrepareAndPublish_fuelOut (env : Env) (p : Package) (st : St) :
    (Package.prepareAndPublish env p st).1.fuelOut = st.fuelOut := by
  simp only [Package.prepareAndPublish]
  repeat' split
  all_goals simp

theorem packagePrepareAndPublish_goproxySet (env : Env) (p : Package)
    (st : St) :
    (Package.prepareAndPublish env p st).1.goproxySet = st.goproxySet := by
  simp only [Package.prepareAndPublish]
  repeat' split
  all_goals simp

theorem pwdPrepareAndPublish_depsMap (env : Env) (pwd : PackageWithDeps)
    (st : St) :
    (PackageWithDeps.prepareAndPublish env pwd st).1.cache.depsMap =
      assocSet st.cache.depsMap pwd.Dependency.id true := by
  simp only [PackageWithDeps.prepareAndPublish]
  simp [packagePrepareAndPublish_depsMap]

theorem pwdPrepareAndPublish_total (env : Env) (pwd : PackageWithDeps)
    (st : St) :
    (PackageWithDeps.prepareAndPublish env pwd st).1.cache.total =
      st.cache.total := by
  simp only [PackageWithDeps.prepareAndPublish]
  simp [packagePrepareAndPublish_total]

theorem pwdPrepareAndPublish_outcome (env : Env) (pwd : PackageWithDeps)
    (st : St) :
    (PackageWithDeps.prepareAndPublish env pwd st).1.cache.success +
      (PackageWithDeps.prepareAndPublish env pwd st).1.cache.failures =
      st.cache.success + st.cache.failures + 1 := by
  simp only [PackageWithDeps.prepareAndPublish]
  simpa using packagePrepareAndPublish_outcome env pwd.Dependency st

theorem pwdPrepareAndPublish_fuelOut (env : Env) (pwd : PackageWithDeps)
    (st : St) :
    (PackageWithDeps.prepareAndPublish env pwd st).1.fuelOut = st.fuelOut := by
  simp only [PackageWithDeps.prepareAndPublish]
  simp [packagePrepareAndPublish_fuelOut]

theorem pwdPrepareAndPublish_goproxySet (env : Env) (pwd : PackageWithDeps)
    (st : St) :
    (PackageWithDeps.prepareAndPublish env pwd st).1.goproxySet =
      st.goproxySet := by
  simp only [PackageWithDeps.prepareAndPublish]
  simp [packagePrepareAndPublish_goproxySet]

/-- The exact events of a publish attempt: the repository call strictly
precedes the cache marking (claim C1's temporal half). -/
theorem pwdPrepareAndPublish_trace (env : Env) (pwd : PackageWithDeps)
    (st : St) :
    (PackageWithDeps.prepareAndPublish env pwd st).1.trace =
      st.trace ++ [.publish pwd.Dependency.id pwd.Dependency.modContent,
        .cacheWrite pwd.Dependency.id true] := by
  simp only [PackageWithDeps.prepareAndPublish, Package.prepareAndPublish]
  repeat' split
  all_goals simp

theorem removeAllStep_cache (env : Env) (st : St) (path : String) :
    (removeAllStep env st path).cache = st.cache := by
  simp only [removeAllStep]
  repeat' split
  all_goals simp

theorem removeAllStep_fuelOut (env : Env) (st : St) (path : String) :
    (removeAllStep env st path).fuelOut = st.fuelOut := by
  simp only [removeAllStep]
  repeat' split
  all_goals simp

theorem removeAllStep_goproxySet (env : Env) (st : St) (path : String) :
    (removeAllStep env st path).goproxySet = st.goproxySet := by
  simp only [removeAllStep]
  repeat' split
  all_goals simp

theorem removeAllStep_cwd (env : Env) (st : St) (path : String) :
    (removeAllStep env st path).cwd = st.cwd := by
  simp only [removeAllStep]
  repeat' split
  all_goals simp

theorem removeAllStep_trace (env : Env) (st : St) (path : String) :
    (removeAllStep env st path).trace = st.trace ++ [.removeAll (dirOf path)] := by
  simp only [removeAllStep]
  repeat' split
  all_goals simp

/-! ## Lemmas about transitive expansion -/

/-- Shape of a materialized child (claim C4): it shares the parent's
matcher, cache path, tidy selector and edit message, and its id — derived
from some well-formed edge of the graph — is recorded in the map `m` with
the Artifactory existence-probe result as flag. -/
def ChildShape (env : Env) (targetRepo : String) (pwd : PackageWithDeps)
    (edges : List String) (m : List (String × Bool)) (c : PackageWithDeps) :
    Prop :=
  c.regExp = pwd.regExp ∧ c.cachePath = pwd.cachePath ∧
  c.TidyEnum = pwd.TidyEnum ∧ c.GoModEditMessage = pwd.GoModEditMessage ∧
  ∃ e ∈ edges, ∃ p v flag, strSplit e '@' = [p, v] ∧
    c.Dependency.id = getDependencyName p ++ ":" ++ v ∧
    env.existsInArtifactory p v targetRepo = .ok flag ∧
    assocGet m c.Dependency.id = some flag

theorem childShape_cons_edge (env : Env) (targetRepo : String)
    (pwd : PackageWithDeps) (e₀ : String) (edges : List String)
    (m : List (String × Bool)) (c : PackageWithDeps)
    (h : ChildShape env targetRepo pwd edges m c) :
    ChildShape env targetRepo pwd (e₀ :: edges) m c := by
  obtain ⟨h₁, h₂, h₃, h₄, e, he, rest⟩ := h
  exact ⟨h₁, h₂, h₃, h₄, e, List.mem_cons_of_mem _ he, rest⟩

theorem childShape_map_pres (env : Env) (targetRepo : String)
    (pwd : PackageWithDeps) (edges : List String)
    (m m' : List (String × Bool)) (c : PackageWithDeps)
    (hm : ∀ k b, assocGet m k = some b → assocGet m' k = some b)
    (h : ChildShape env targetRepo pwd edges m c) :
    ChildShape env targetRepo pwd edges m' c := by
  obtain ⟨h₁, h₂, h₃, h₄, e, he, p, v, flag, hsp, hid, hex, hget⟩ := h
  exact ⟨h₁, h₂, h₃, h₄, e, he, p, v, flag, hsp, hid, hex, hm _ _ hget⟩

/-- `setTransitiveStep` preserves every existing map binding: it only ever
writes a key that is absent. -/
theorem setTransitiveStep_entry_pres (env : Env) (targetRepo : String)
    (pwd : PackageWithDeps) (acc : List PackageWithDeps × St) (e : String)
    (k : String) (b : Bool)
    (h : assocGet acc.2.cache.depsMap k = some b) :
    assocGet (setTransitiveStep env targetRepo pwd acc e).2.cache.depsMap k =
      some b := by
  rcases acc with ⟨deps, st⟩
  simp only [setTransitiveStep]
  split
  case h_2 => exact h
  case h_1 mp mv hsp =>
    by_cases hguard :
      (assocGet st.cache.depsMap (getDependencyName mp ++ ":" ++ mv)).isNone = true
    · rw [if_pos hguard]
      repeat' split
      all_goals try exact h
      simp only [emit_cache, mapSet_depsMap]
      rw [assocGet_set_ne]
      · exact h
      · intro hk
        rw [hk] at h
        simp [h] at hguard
    · rw [if_neg hguard]
      exact h

theorem setTransitiveStep_total (env : Env) (targetRepo : String)
    (pwd : PackageWithDeps) (acc : List PackageWithDeps × St) (e : String) :
    (setTransitiveStep env targetRepo pwd acc e).2.cache.total =
      acc.2.cache.total := by
  rcases acc with ⟨deps, st⟩
  simp only [setTransitiveStep]
  repeat' split
  all_goals simp

theorem setTransitiveStep_success (env : Env) (targetRepo : String)
    (pwd : PackageWithDeps) (acc : List PackageWithDeps × St) (e : String) :
    (setTransitiveStep env targetRepo pwd acc e).2.cache.success =
      acc.2.cache.success := by
  rcases acc with ⟨deps, st⟩
  simp only [setTransitiveStep]
  repeat' split
  all_goals simp

theorem setTransitiveStep_failures (env : Env) (targetRepo : String)
    (pwd : PackageWithDeps) (acc : List PackageWithDeps × St) (e : String) :
    (setTransitiveStep env targetRepo pwd acc e).2.cache.failures =
      acc.2.cache.failures := by
  rcases acc with ⟨deps, st⟩
  simp only [setTransitiveStep]
  repeat' split
  all_goals simp

theorem setTransitiveStep_fuelOut (env : Env) (targetRepo : String)
    (pwd : PackageWithDeps) (acc : List PackageWithDeps × St) (e : String) :
    (setTransitiveStep env targetRepo pwd acc e).2.fuelOut = acc.2.fuelOut := by
  rcases acc with ⟨deps, st⟩
  simp only [setTransitiveStep]
  repeat' split
  all_goals simp

theorem setTransitiveStep_goproxySet (env : Env) (targetRepo : String)
    (pwd : PackageWithDeps) (acc : List PackageWithDeps × St) (e : String) :
    (setTransitiveStep env targetRepo pwd acc e).2.goproxySet =
      acc.2.goproxySet := by
  rcases acc with ⟨deps, st⟩
  simp only [setTransitiveStep]
  repeat' split
  all_goals simp

theorem setTransitiveStep_cwd (env : Env) (targetRepo : String)
    (pwd : PackageWithDeps) (acc : List PackageWithDeps × St) (e : String) :
    (setTransitiveStep env targetRepo pwd acc e).2.cwd = acc.2.cwd := by
  rcases acc with ⟨deps, st⟩
  simp only [setTransitiveStep]
  repeat' split
  all_goals simp

/-- One expansion step preserves the shape invariant of the children built
so far, and any child it appends has the claimed shape. -/
theorem setTransitiveStep_shape (env : Env) (targetRepo : String)
    (pwd : PackageWithDeps) (acc : List PackageWithDeps × St) (e : String)
    (edges : List String) (he : e ∈ edges)
    (hacc : ∀ c ∈ acc.1, ChildShape env targetRepo pwd edges
      acc.2.cache.depsMap c) :
    ∀ c ∈ (setTransitiveStep env targetRepo pwd acc e).1,
      ChildShape env targetRepo pwd edges
        (setTransitiveStep env targetRepo pwd acc e).2.cache.depsMap c := by
  rcases acc with ⟨deps, st⟩
  simp only [setTransitiveStep]
  split
  case h_2 => exact hacc
  case h_1 mp mv hsp =>
    by_cases hguard :
      (assocGet st.cache.depsMap (getDependencyName mp ++ ":" ++ mv)).isNone = true
    · rw [if_pos hguard]
      rcases hcr : env.createDependency pwd.cachePath (getDependencyName mp) mv
        with ecr | dep0
      · exact hacc
      · rcases hex : env.existsInArtifactory mp mv targetRepo with eex | flag
        · exact hacc
        · rcases dep0 with _ | ⟨dm, dz⟩
          · rcases hdl : env.downloadDep (getDependencyName mp) mv
              with edl | odep
            · exact hacc
            · rcases odep with _ | ⟨dm, dz⟩
              · exact hacc
              · simp only [emit_cache, mapSet_depsMap]
                intro c hc
                rw [List.mem_append] at hc
                rcases hc with hc | hc
                · refine childShape_map_pres env targetRepo pwd edges _ _ c
                    ?_ (hacc c hc)
                  intro k b hb
                  rw [assocGet_set_ne]
                  · exact hb
                  · intro hk
                    rw [hk] at hb
                    simp [hb] at hguard
                · rw [List.mem_singleton] at hc
                  subst hc
                  exact ⟨rfl, rfl, rfl, rfl, e, he, mp, mv, flag, hsp, rfl,
                    hex, assocGet_set_self _ _ _⟩
          · simp only [emit_cache, mapSet_depsMap]
            intro c hc
            rw [List.mem_append] at hc
            rcases hc with hc | hc
            · refine childShape_map_pres env targetRepo pwd edges _ _ c
                ?_ (hacc c hc)
              intro k b hb
              rw [assocGet_set_ne]
              · exact hb
              · intro hk
                rw [hk] at hb
                simp [hb] at hguard
            · rw [List.mem_singleton] at hc
              subst hc
              exact ⟨rfl, rfl, rfl, rfl, e, he, mp, mv, flag, hsp, rfl,
                hex, assocGet_set_self _ _ _⟩
    · rw [if_neg hguard]
      exact hacc

/-- A trace segment consisting solely of cache-write events. -/
def OnlyCacheWrites (t : List Ev) : Prop :=
  ∀ e ∈ t, ∃ k f, e = Ev.cacheWrite k f

/-- One expansion step only appends cache-write events to the trace: in
particular it never begins a populate-and-publish of anything. -/
theorem setTransitiveStep_trace (env : Env) (targetRepo : String)
    (pwd : PackageWithDeps) (acc : List PackageWithDeps × St) (e : String) :
    ∃ t, (setTransitiveStep env targetRepo pwd acc e).2.trace =
      acc.2.trace ++ t ∧ OnlyCacheWrites t := by
  rcases acc with ⟨deps, st⟩
  simp only [setTransitiveStep]
  split
  case h_2 => exact ⟨[], by simp, by intro e he; simp at he⟩
  case h_1 mp mv hsp =>
    by_cases hguard :
      (assocGet st.cache.depsMap (getDependencyName mp ++ ":" ++ mv)).isNone = true
    · rw [if_pos hguard]
      rcases hcr : env.createDependency pwd.cachePath (getDependencyName mp) mv
        with ecr | dep0
      · exact ⟨[], by simp, by intro e he; simp at he⟩
      · rcases hex : env.existsInArtifactory mp mv targetRepo with eex | flag
        · exact ⟨[], by simp, by intro e he; simp at he⟩
        · rcases dep0 with _ | ⟨dm, dz⟩
          · rcases hdl : env.downloadDep (getDependencyName mp) mv
              with edl | odep
            · exact ⟨[], by simp, by intro e he; simp at he⟩
            · rcases odep with _ | ⟨dm, dz⟩
              · exact ⟨[], by simp, by intro e he; simp at he⟩
              · refine ⟨[Ev.cacheWrite (getDependencyName mp ++ ":" ++ mv)
                  flag], by simp [St.mapSet], ?_⟩
                intro e he
                rw [List.mem_singleton] at he
                exact ⟨_, _, he⟩
          · refine ⟨[Ev.cacheWrite (getDependencyName mp ++ ":" ++ mv)
              flag], by simp [St.mapSet], ?_⟩
            intro e he
            rw [List.mem_singleton] at he
            exact ⟨_, _, he⟩
    · rw [if_neg hguard]
      exact ⟨[], by simp, by intro e he; simp at he⟩

/-- The fold underlying `setTransitiveDependencies` preserves existing map
bindings. -/
theorem setTransitiveFold_entry_pres (env : Env) (targetRepo : String)
    (pwd : PackageWithDeps) :
    ∀ (edges : List String) (acc : List PackageWithDeps × St) (k : String)
      (b : Bool), assocGet acc.2.cache.depsMap k = some b →
      assocGet ((edges.foldl (setTransitiveStep env targetRepo pwd)
        acc).2.cache.depsMap) k = some b := by
  intro edges
  induction edges with
  | nil => intro acc k b h; exact h
  | cons e rest ih =>
    intro acc k b h
    exact ih _ k b (setTransitiveStep_entry_pres env targetRepo pwd acc e k b h)

/-- `setTransitiveDependencies` preserves existing map bindings: it only
creates entries for ids that are absent. -/
theorem setTransitiveDependencies_entry_pres (env : Env) (targetRepo : String)
    (pwd : PackageWithDeps) (st : St) (edges : List String) (k : String)
    (b : Bool) (h : assocGet st.cache.depsMap k = some b) :
    assocGet (setTransitiveDependencies env targetRepo pwd st
      edges).2.cache.depsMap k = some b := by
  simpa [setTransitiveDependencies] using
    setTransitiveFold_entry_pres env targetRepo pwd edges ([], st) k b h

theorem setTransitiveFold_counters (env : Env) (targetRepo : String)
    (pwd : PackageWithDeps) :
    ∀ (edges : List String) (acc : List PackageWithDeps × St),
      (edges.foldl (setTransitiveStep env targetRepo pwd) acc).2.cache.total =
        acc.2.cache.total ∧
      (edges.foldl (setTransitiveStep env targetRepo pwd) acc).2.cache.success =
        acc.2.cache.success ∧
      (edges.foldl (setTransitiveStep env targetRepo pwd)
        acc).2.cache.failures = acc.2.cache.failures ∧
      (edges.foldl (setTransitiveStep env targetRepo pwd) acc).2.fuelOut =
        acc.2.fuelOut ∧
      (edges.foldl (setTransitiveStep env targetRepo pwd) acc).2.goproxySet =
        acc.2.goproxySet ∧
      (edges.foldl (setTransitiveStep env targetRepo pwd) acc).2.cwd =
        acc.2.cwd := by
  intro edges
  induction edges with
  | nil => intro acc; exact ⟨rfl, rfl, rfl, rfl, rfl, rfl⟩
  | cons e rest ih =>
    intro acc
    obtain ⟨h₁, h₂, h₃, h₄, h₅, h₆⟩ := ih (setTransitiveStep env targetRepo pwd acc e)
    refine ⟨?_, ?_, ?_, ?_, ?_, ?_⟩
    · rw [List.foldl_cons, h₁, setTransitiveStep_total]
    · rw [List.foldl_cons, h₂, setTransitiveStep_success]
    · rw [List.foldl_cons, h₃, setTransitiveStep_failures]
    · rw [List.foldl_cons, h₄, setTransitiveStep_fuelOut]
    · rw [List.foldl_cons, h₅, setTransitiveStep_goproxySet]
    · rw [List.foldl_cons, h₆, setTransitiveStep_cwd]

/-- All children produced by the fold have the claimed shape with respect
to a list of edges containing all folded edges. -/
theorem setTransitiveFold_shape (env : Env) (targetRepo : String)
    (pwd : PackageWithDeps) (E : List String) :
    ∀ (edges : List String) (acc : List PackageWithDeps × St),
      (∀ e ∈ edges, e ∈ E) →
      (∀ c ∈ acc.1, ChildShape env targetRepo pwd E acc.2.cache.depsMap c) →
      ∀ c ∈ (edges.foldl (setTransitiveStep env targetRepo pwd) acc).1,
        ChildShape env targetRepo pwd E
          ((edges.foldl (setTransitiveStep env targetRepo pwd)
            acc).2.cache.depsMap) c := by
  intro edges
  induction edges with
  | nil => intro acc _ hacc; exact hacc
  | cons e rest ih =>
    intro acc hsub hacc
    rw [List.foldl_cons]
    refine ih _ (fun x hx => hsub x (List.mem_cons_of_mem _ hx)) ?_
    exact setTransitiveStep_shape env targetRepo pwd acc e E
      (hsub e (List.mem_cons_self _ _)) hacc

/-- Claim C4's core: every child materialized by `setTransitiveDependencies`
shares the parent's matcher, cache path, tidy selector and edit-marker
message, and its id is recorded in the resulting shared map with the
existence-probe result as its flag. -/
theorem setTransitiveDependencies_shape (env : Env) (targetRepo : String)
    (pwd : PackageWithDeps) (st : St) (edges : List String) :
    ∀ c ∈ (setTransitiveDependencies env targetRepo pwd st edges).1,
      ChildShape env targetRepo pwd edges
        ((setTransitiveDependencies env targetRepo pwd st
          edges).2.cache.depsMap) c := by
  simpa [setTransitiveDependencies] using
    setTransitiveFold_shape env targetRepo pwd edges edges ([], st)
      (fun _ hx => hx) (by intro c hc; simp at hc)

theorem setTransitiveFold_trace (env : Env) (targetRepo : String)
    (pwd : PackageWithDeps) :
    ∀ (edges : List String) (acc : List PackageWithDeps × St),
      ∃ t, (edges.foldl (setTransitiveStep env targetRepo pwd)
        acc).2.trace = acc.2.trace ++ t ∧ OnlyCacheWrites t := by
  intro edges
  induction edges with
  | nil =>
    intro acc
    exact ⟨[], by simp, by intro e he; simp at he⟩
  | cons e rest ih =>
    intro acc
    obtain ⟨t₁, ht₁, ho₁⟩ := setTransitiveStep_trace env targetRepo pwd acc e
    obtain ⟨t₂, ht₂, ho₂⟩ := ih (setTransitiveStep env targetRepo pwd acc e)
    refine ⟨t₁ ++ t₂, ?_, ?_⟩
    · rw [List.foldl_cons, ht₂, ht₁, List.append_assoc]
    · intro ev hev
      rw [List.mem_append] at hev
      rcases hev with h | h
      · exact ho₁ ev h
      · exact ho₂ ev h

/-- `setTransitiveDependencies` appends only cache-write events to the
trace: expansion itself never starts a child's populate-and-publish. -/
theorem setTransitiveDependencies_trace (env : Env) (targetRepo : String)
    (pwd : PackageWithDeps) (st : St) (edges : List String) :
    ∃ t, (setTransitiveDependencies env targetRepo pwd st edges).2.trace =
      st.trace ++ t ∧ OnlyCacheWrites t := by
  simpa [setTransitiveDependencies] using
    setTransitiveFold_trace env targetRepo pwd edges ([], st)

/-! ## Trace extension

Every operation of the embedding only appends to the event trace. -/

/-- `TraceExt st st'` - the trace of `st'` extends the trace of `st`. -/
def TraceExt (st st' : St) : Prop :=
  ∃ t, st'.trace = st.trace ++ t

theorem traceExt_refl (st : St) : TraceExt st st :=
  ⟨[], by simp⟩

theorem traceExt_trans {a b c : St} (h₁ : TraceExt a b) (h₂ : TraceExt b c) :
    TraceExt a c := by
  obtain ⟨t₁, ht₁⟩ := h₁
  obtain ⟨t₂, ht₂⟩ := h₂
  exact ⟨t₁ ++ t₂, by rw [ht₂, ht₁, List.append_assoc]⟩

theorem traceExt_mem {a b : St} (h : TraceExt a b) (e : Ev)
    (he : e ∈ a.trace) : e ∈ b.trace := by
  obtain ⟨t, ht⟩ := h
  rw [ht, List.mem_append]
  exact Or.inl he

theorem getModPathAndUnzipDependency_traceExt (env : Env)
    (pwd : PackageWithDeps) (st : St) :
    TraceExt st (getModPathAndUnzipDependency env pwd st).1 := by
  simp only [getModPathAndUnzipDependency]
  repeat' split
  all_goals exact ⟨_, by simp <;> rfl⟩

theorem useCachedMod_traceExt (env : Env) (pwd : PackageWithDeps) (st : St)
    (path : String) : TraceExt st (useCachedMod env pwd st path).1 := by
  simp only [useCachedMod]
  repeat' split
  all_goals exact ⟨_, by simp <;> rfl⟩

theorem prepareAndRunInit_traceExt (env : Env) (pwd : PackageWithDeps)
    (st : St) (path : String) :
    TraceExt st (prepareAndRunInit env pwd st path).1 := by
  simp only [prepareAndRunInit]
  repeat' split
  all_goals exact ⟨_, by simp <;> rfl⟩

theorem prepareUnpublishedDependency_traceExt (env : Env)
    (pwd : PackageWithDeps) (st : St) (path : String) :
    TraceExt st (prepareUnpublishedDependency env pwd st path).2.1 := by
  simp only [prepareUnpublishedDependency]
  rcases h : prepareAndRunInit env pwd st path with ⟨st', err⟩
  have hext : TraceExt st st' := by
    have := prepareAndRunInit_traceExt env pwd st path
    rwa [h] at this
  rcases err with _ | e
  · exact traceExt_trans hext ⟨_, by simp <;> rfl⟩
  · simp only []
    split
    · exact traceExt_trans hext ⟨_, by simp <;> rfl⟩
    · exact traceExt_trans hext ⟨_, by simp <;> rfl⟩

theorem populateModWithTidy_traceExt (env : Env) (st : St) (path : String) :
    TraceExt st (populateModWithTidy env st path).1 := by
  simp only [populateModWithTidy]
  repeat' split
  all_goals exact ⟨_, by simp <;> rfl⟩

theorem runGoModGraph_traceExt (env : Env) (st : St) :
    TraceExt st (runGoModGraph env st).1 := by
  simp only [runGoModGraph]
  repeat' split
  all_goals exact ⟨_, by simp <;> rfl⟩

theorem updateModContent_traceExt (env : Env) (pwd : PackageWithDeps)
    (st : St) (path : String) :
    TraceExt st (updateModContent env pwd st path).2.1 := by
  simp only [updateModContent]
  repeat' split
  all_goals exact ⟨_, by simp <;> rfl⟩

theorem writeModContentToGoCache_traceExt (pwd : PackageWithDeps) (st : St) :
    TraceExt st (writeModContentToGoCache pwd st).1 := by
  simp only [writeModContentToGoCache, writeModContentToModFile]
  exact ⟨_, by simp <;> rfl⟩

theorem pwdPrepareAndPublish_traceExt (env : Env) (pwd : PackageWithDeps)
    (st : St) : TraceExt st (PackageWithDeps.prepareAndPublish env pwd st).1 :=
  ⟨_, pwdPrepareAndPublish_trace env pwd st⟩

theorem removeAllStep_traceExt (env : Env) (st : St) (path : String) :
    TraceExt st (removeAllStep env st path) :=
  ⟨_, removeAllStep_trace env st path⟩

theorem createDependencyAndPrepareMod_traceExt (env : Env)
    (pwd : PackageWithDeps) (st : St) :
    TraceExt st (createDependencyAndPrepareMod env pwd st).2.1 := by
  simp only [createDependencyAndPrepareMod]
  rcases h : getModPathAndUnzipDependency env pwd st with ⟨st₁, path, err⟩
  have h₁ : TraceExt st st₁ := by
    have := getModPathAndUnzipDependency_traceExt env pwd st
    rwa [h] at this
  rcases err with _ | e
  · simp only []
    split
    · rcases h₂ : useCachedMod env
        { pwd with shouldRevertToEmptyMod := false } st₁ path with ⟨st₂, err₂⟩
      have hx₂ : TraceExt st₁ st₂ := by
        have := useCachedMod_traceExt env
          { pwd with shouldRevertToEmptyMod := false } st₁ path
        rwa [h₂] at this
      rcases err₂ with _ | e₂
      · rcases h₃ : runGoModGraph env st₂ with ⟨st₃, out, err₃⟩
        have hx₃ : TraceExt st₂ st₃ := by
          have := runGoModGraph_traceExt env st₂
          rwa [h₃] at this
        simpa [h₃] using traceExt_trans h₁ (traceExt_trans hx₂ hx₃)
      · exact traceExt_trans h₁ hx₂
    · split
      · rcases h₂ : prepareUnpublishedDependency env
          { pwd with shouldRevertToEmptyMod := false } st₁ path
          with ⟨pwd₂, st₂, orig⟩
        have hx₂ : TraceExt st₁ st₂ := by
          have := prepareUnpublishedDependency_traceExt env
            { pwd with shouldRevertToEmptyMod := false } st₁ path
          rwa [h₂] at this
        simp only []
        split
        · rcases h₃ : populateModWithTidy env st₂ path with ⟨st₃, err₃⟩
          have hx₃ : TraceExt st₂ st₃ := by
            have := populateModWithTidy_traceExt env st₂ path
            rwa [h₃] at this
          rcases h₄ : runGoModGraph env st₃ with ⟨st₄, out, err₄⟩
          have hx₄ : TraceExt st₃ st₄ := by
            have := runGoModGraph_traceExt env st₃
            rwa [h₄] at this
          simpa [h₃, h₄] using traceExt_trans h₁
            (traceExt_trans hx₂ (traceExt_trans hx₃ hx₄))
        · rcases h₄ : runGoModGraph env st₂ with ⟨st₄, out, err₄⟩
          have hx₄ : TraceExt st₂ st₄ := by
            have := runGoModGraph_traceExt env st₂
            rwa [h₄] at this
          simpa [h₄] using traceExt_trans h₁ (traceExt_trans hx₂ hx₄)
      · simp only []
        split
        · rcases h₃ : populateModWithTidy env
            (writeModContentToModFile st₁ path pwd.Dependency.modContent) path
            with ⟨st₃, err₃⟩
          have hx₃ : TraceExt st₁ st₃ := by
            have h₀ : TraceExt st₁
                (writeModContentToModFile st₁ path pwd.Dependency.modContent) :=
              ⟨_, by simp <;> rfl⟩
            have := populateModWithTidy_traceExt env
              (writeModContentToModFile st₁ path pwd.Dependency.modContent) path
            rw [h₃] at this
            exact traceExt_trans h₀ this
          rcases h₄ : runGoModGraph env st₃ with ⟨st₄, out, err₄⟩
          have hx₄ : TraceExt st₃ st₄ := by
            have := runGoModGraph_traceExt env st₃
            rwa [h₄] at this
          simpa [h₃, h₄] using traceExt_trans h₁ (traceExt_trans hx₃ hx₄)
        · rcases h₄ : runGoModGraph env
            (writeModContentToModFile st₁ path pwd.Dependency.modContent)
            with ⟨st₄, out, err₄⟩
          have hx₄ : TraceExt st₁ st₄ := by
            have h₀ : TraceExt st₁
                (writeModContentToModFile st₁ path pwd.Dependency.modContent) :=
              ⟨_, by simp <;> rfl⟩
            have := runGoModGraph_traceExt env
              (writeModContentToModFile st₁ path pwd.Dependency.modContent)
            rw [h₄] at this
            exact traceExt_trans h₀ this
          simpa [h₄] using traceExt_trans h₁ hx₄
  · exact h₁

/-! ## Stage lemmas for `publishDepCore` -/

theorem expandGraphStage_entry_pres (env : Env) (targetRepo : String)
    (pwd : PackageWithDeps) (st : St) (path : String) (edges : List String)
    (k : String) (b : Bool) (h : assocGet st.cache.depsMap k = some b) :
    assocGet (expandGraphStage env targetRepo pwd st path
      edges).2.cache.depsMap k = some b := by
  simp only [expandGraphStage]
  repeat' split
  all_goals simp only [emit_cache]
  all_goals try exact h
  all_goals exact (setTransitiveDependencies_entry_pres env targetRepo pwd
    (st.emit (.getSum (dirOf path))) edges k b (by simpa using h))

theorem expandGraphStage_counters (env : Env) (targetRepo : String)
    (pwd : PackageWithDeps) (st : St) (path : String) (edges : List String) :
    (expandGraphStage env targetRepo pwd st path edges).2.cache.total =
      st.cache.total ∧
    (expandGraphStage env targetRepo pwd st path edges).2.cache.success =
      st.cache.success ∧
    (expandGraphStage env targetRepo pwd st path edges).2.cache.failures =
      st.cache.failures ∧
    (expandGraphStage env targetRepo pwd st path edges).2.fuelOut =
      st.fuelOut ∧
    (expandGraphStage env targetRepo pwd st path edges).2.goproxySet =
      st.goproxySet ∧
    (expandGraphStage env targetRepo pwd st path edges).2.cwd = st.cwd := by
  have hfold := setTransitiveFold_counters env targetRepo pwd edges
    ([], st.emit (.getSum (dirOf path)))
  simp only [expandGraphStage, setTransitiveDependencies]
  repeat' split
  all_goals simp_all

theorem expandGraphStage_shape (env : Env) (targetRepo : String)
    (pwd : PackageWithDeps) (st : St) (path : String) (edges : List String) :
    ∀ c ∈ (expandGraphStage env targetRepo pwd st path edges).1,
      ChildShape env targetRepo pwd edges
        ((expandGraphStage env targetRepo pwd st path
          edges).2.cache.depsMap) c := by
  simp only [expandGraphStage]
  repeat' split
  all_goals simp only [emit_cache]
  all_goals try (intro c hc; simp at hc)
  all_goals exact (setTransitiveDependencies_shape env targetRepo pwd
    (st.emit (.getSum (dirOf path))) edges)

/-- The expansion stage appends no `startWork` event: populate of a child
is never begun during expansion. -/
theorem expandGraphStage_trace (env : Env) (targetRepo : String)
    (pwd : PackageWithDeps) (st : St) (path : String) (edges : List String) :
    ∃ t, (expandGraphStage env targetRepo pwd st path edges).2.trace =
      st.trace ++ t ∧ ∀ id, Ev.startWork id ∉ t := by
  simp only [expandGraphStage]
  obtain ⟨t, ht, ho⟩ := setTransitiveDependencies_trace env targetRepo pwd
    (st.emit (.getSum (dirOf path))) edges
  repeat' split
  · refine ⟨Ev.getSum (dirOf path) :: t ++ [Ev.restoreSum (dirOf path)], ?_, ?_⟩
    · simp [ht]
    · intro id hid
      simp at hid
      obtain ⟨k, f, hk⟩ := ho _ hid
      exact Ev.noConfusion hk
  · refine ⟨Ev.getSum (dirOf path) :: t, ?_, ?_⟩
    · simp [ht]
    · intro id hid
      simp at hid
      obtain ⟨k, f, hk⟩ := ho _ hid
      exact Ev.noConfusion hk
  · exact ⟨[], by simp, by intro id hid; simp at hid⟩

theorem goCachePersistStage_cache (pwd : PackageWithDeps) (published : Bool)
    (st : St) : (goCachePersistStage pwd published st).cache = st.cache := by
  simp only [goCachePersistStage]
  repeat' split
  all_goals simp [writeModContentToGoCache_cache]

theorem goCachePersistStage_fuelOut (pwd : PackageWithDeps)
    (published : Bool) (st : St) :
    (goCachePersistStage pwd published st).fuelOut = st.fuelOut := by
  simp only [goCachePersistStage]
  repeat' split
  all_goals simp [writeModContentToGoCache_fuelOut]

theorem goCachePersistStage_goproxySet (pwd : PackageWithDeps)
    (published : Bool) (st : St) :
    (goCachePersistStage pwd published st).goproxySet = st.goproxySet := by
  simp only [goCachePersistStage]
  repeat' split
  all_goals simp [writeModContentToGoCache_goproxySet]

theorem goCachePersistStage_traceExt (pwd : PackageWithDeps)
    (published : Bool) (st : St) :
    TraceExt st (goCachePersistStage pwd published st) := by
  simp only [goCachePersistStage]
  repeat' split
  · exact writeModContentToGoCache_traceExt pwd st
  · exact traceExt_refl st

theorem revertStage_cache (pwd : PackageWithDeps) (published : Bool)
    (st : St) (path : String) :
    (revertStage pwd published st path).2.cache = st.cache := by
  simp only [revertStage]
  repeat' split
  all_goals simp [writeModContentToGoCache_cache]

theorem revertStage_fuelOut (pwd : PackageWithDeps) (published : Bool)
    (st : St) (path : String) :
    (revertStage pwd published st path).2.fuelOut = st.fuelOut := by
  simp only [revertStage]
  repeat' split
  all_goals simp [writeModContentToGoCache_fuelOut]

theorem revertStage_goproxySet (pwd : PackageWithDeps) (published : Bool)
    (st : St) (path : String) :
    (revertStage pwd published st path).2.goproxySet = st.goproxySet := by
  simp only [revertStage]
  repeat' split
  all_goals simp [writeModContentToGoCache_goproxySet]

theorem revertStage_traceExt (pwd : PackageWithDeps) (published : Bool)
    (st : St) (path : String) :
    TraceExt st (revertStage pwd published st path).2 := by
  simp only [revertStage]
  repeat' split
  all_goals try exact traceExt_refl st
  all_goals refine traceExt_trans ?_ (writeModContentToGoCache_traceExt _ _)
  all_goals exact ⟨_, by simp <;> rfl⟩

theorem publishStage_entry_true (env : Env) (pwd : PackageWithDeps)
    (published : Bool) (st : St) (k : String)
    (h : assocGet st.cache.depsMap k = some true) :
    assocGet (publishStage env pwd published st).cache.depsMap k =
      some true := by
  simp only [publishStage]
  split
  · rw [pwdPrepareAndPublish_depsMap]
    by_cases hk : k = pwd.Dependency.id
    · subst hk; exact assocGet_set_self _ _ _
    · rw [assocGet_set_ne _ _ _ _ hk]; exact h
  · exact h

theorem publishStage_entry_isSome (env : Env) (pwd : PackageWithDeps)
    (published : Bool) (st : St) (k : String)
    (h : (assocGet st.cache.depsMap k).isSome) :
    (assocGet (publishStage env pwd published st).cache.depsMap k).isSome := by
  simp only [publishStage]
  split
  · rw [pwdPrepareAndPublish_depsMap]
    exact assocGet_set_isSome _ _ _ _ h
  · exact h

theorem publishStage_fuelOut (env : Env) (pwd : PackageWithDeps)
    (published : Bool) (st : St) :
    (publishStage env pwd published st).fuelOut = st.fuelOut := by
  simp only [publishStage]
  split
  · exact pwdPrepareAndPublish_fuelOut env pwd st
  · rfl

theorem publishStage_goproxySet (env : Env) (pwd : PackageWithDeps)
    (published : Bool) (st : St) :
    (publishStage env pwd published st).goproxySet = st.goproxySet := by
  simp only [publishStage]
  split
  · exact pwdPrepareAndPublish_goproxySet env pwd st
  · rfl

theorem publishStage_traceExt (env : Env) (pwd : PackageWithDeps)
    (published : Bool) (st : St) :
    TraceExt st (publishStage env pwd published st) := by
  simp only [publishStage]
  split
  · exact pwdPrepareAndPublish_traceExt env pwd st
  · exact traceExt_refl st

/-! ## Lemmas about the child traversal, parameterized by the behaviour of
the recursive call -/

section PopulateTransitiveLemmas

variable (recurse : PackageWithDeps → St → PackageWithDeps × St × Option String)

theorem populateTransitiveVisit_entry_true
    (hrec : ∀ p s k, assocGet s.cache.depsMap k = some true →
      assocGet (recurse p s).2.1.cache.depsMap k = some true)
    (st : St) (c : PackageWithDeps) (k : String)
    (h : assocGet st.cache.depsMap k = some true) :
    assocGet (populateTransitiveVisit recurse st c).cache.depsMap k =
      some true := by
  simp only [populateTransitiveVisit]
  split
  · exact hrec _ _ _ h
  · simpa using h

theorem populateTransitiveFold_entry_true
    (hrec : ∀ p s k, assocGet s.cache.depsMap k = some true →
      assocGet (recurse p s).2.1.cache.depsMap k = some true) :
    ∀ (cs : List PackageWithDeps) (st : St) (k : String),
      assocGet st.cache.depsMap k = some true →
      assocGet ((cs.foldl (populateTransitiveVisit recurse)
        st).cache.depsMap) k = some true := by
  intro cs
  induction cs with
  | nil => intro st k h; exact h
  | cons c rest ih =>
    intro st k h
    exact ih _ k (populateTransitiveVisit_entry_true recurse hrec st c k h)

theorem populateTransitive_entry_true
    (hrec : ∀ p s k, assocGet s.cache.depsMap k = some true →
      assocGet (recurse p s).2.1.cache.depsMap k = some true)
    (st : St) (cs : List PackageWithDeps) (k : String)
    (h : assocGet st.cache.depsMap k = some true) :
    assocGet (populateTransitive recurse st cs).cache.depsMap k =
      some true := by
  simp only [populateTransitive]
  exact populateTransitiveFold_entry_true recurse hrec cs _ k (by simpa using h)

theorem populateTransitiveVisit_entry_isSome
    (hrec : ∀ p s k, (assocGet s.cache.depsMap k).isSome →
      (assocGet (recurse p s).2.1.cache.depsMap k).isSome)
    (st : St) (c : PackageWithDeps) (k : String)
    (h : (assocGet st.cache.depsMap k).isSome) :
    (assocGet (populateTransitiveVisit recurse st c).cache.depsMap k).isSome := by
  simp only [populateTransitiveVisit]
  split
  · exact hrec _ _ _ h
  · simpa using h

theorem populateTransitiveFold_entry_isSome
    (hrec : ∀ p s k, (assocGet s.cache.depsMap k).isSome →
      (assocGet (recurse p s).2.1.cache.depsMap k).isSome) :
    ∀ (cs : List PackageWithDeps) (st : St) (k : String),
      (assocGet st.cache.depsMap k).isSome →
      (assocGet ((cs.foldl (populateTransitiveVisit recurse)
        st).cache.depsMap) k).isSome := by
  intro cs
  induction cs with
  | nil => intro st k h; exact h
  | cons c rest ih =>
    intro st k h
    exact ih _ k (populateTransitiveVisit_entry_isSome recurse hrec st c k h)

theorem populateTransitiveVisit_fuelOut_mono
    (hrec : ∀ p s, s.fuelOut = true → (recurse p s).2.1.fuelOut = true)
    (st : St) (c : PackageWithDeps) (h : st.fuelOut = true) :
    (populateTransitiveVisit recurse st c).fuelOut = true := by
  simp only [populateTransitiveVisit]
  split
  · exact hrec _ _ h
  · simpa using h

theorem populateTransitiveFold_fuelOut_mono
    (hrec : ∀ p s, s.fuelOut = true → (recurse p s).2.1.fuelOut = true) :
    ∀ (cs : List PackageWithDeps) (st : St), st.fuelOut = true →
      (cs.foldl (populateTransitiveVisit recurse) st).fuelOut = true := by
  intro cs
  induction cs with
  | nil => intro st h; exact h
  | cons c rest ih =>
    intro st h
    exact ih _ (populateTransitiveVisit_fuelOut_mono recurse hrec st c h)

theorem populateTransitiveVisit_goproxy_pres
    (hrec : ∀ p s, s.goproxySet = false → (recurse p s).2.1.goproxySet = false)
    (st : St) (c : PackageWithDeps) (h : st.goproxySet = false) :
    (populateTransitiveVisit recurse st c).goproxySet = false := by
  simp only [populateTransitiveVisit]
  split
  · exact hrec _ _ h
  · simpa using h

theorem populateTransitiveFold_goproxy_pres
    (hrec : ∀ p s, s.goproxySet = false → (recurse p s).2.1.goproxySet = false) :
    ∀ (cs : List PackageWithDeps) (st : St), st.goproxySet = false →
      (cs.foldl (populateTransitiveVisit recurse) st).goproxySet = false := by
  intro cs
  induction cs with
  | nil => intro st h; exact h
  | cons c rest ih =>
    intro st h
    exact ih _ (populateTransitiveVisit_goproxy_pres recurse hrec st c h)

theorem populateTransitiveVisit_failures_ge
    (hrec : ∀ p s, s.cache.failures ≤ (recurse p s).2.1.cache.failures)
    (st : St) (c : PackageWithDeps) :
    st.cache.failures ≤ (populateTransitiveVisit recurse st c).cache.failures := by
  simp only [populateTransitiveVisit]
  split
  · exact hrec _ _
  · simp

theorem populateTransitiveFold_failures_ge
    (hrec : ∀ p s, s.cache.failures ≤ (recurse p s).2.1.cache.failures) :
    ∀ (cs : List PackageWithDeps) (st : St),
      st.cache.failures ≤
        (cs.foldl (populateTransitiveVisit recurse) st).cache.failures := by
  intro cs
  induction cs with
  | nil => intro st; exact le_refl _
  | cons c rest ih =>
    intro st
    exact le_trans (populateTransitiveVisit_failures_ge recurse hrec st c) (ih _)

theorem populateTransitiveVisit_traceExt
    (hrec : ∀ p s, TraceExt s (recurse p s).2.1)
    (st : St) (c : PackageWithDeps) :
    TraceExt st (populateTransitiveVisit recurse st c) := by
  simp only [populateTransitiveVisit]
  split
  · exact hrec _ _
  · exact ⟨_, by simp <;> rfl⟩

theorem populateTransitiveFold_traceExt
    (hrec : ∀ p s, TraceExt s (recurse p s).2.1) :
    ∀ (cs : List PackageWithDeps) (st : St),
      TraceExt st (cs.foldl (populateTransitiveVisit recurse) st) := by
  intro cs
  induction cs with
  | nil => intro st; exact traceExt_refl st
  | cons c rest ih =>
    intro st
    exact traceExt_trans (populateTransitiveVisit_traceExt recurse hrec st c)
      (ih _)

theorem populateTransitive_traceExt
    (hrec : ∀ p s, TraceExt s (recurse p s).2.1)
    (st : St) (cs : List PackageWithDeps) :
    TraceExt st (populateTransitive recurse st cs) := by
  simp only [populateTransitive]
  refine traceExt_trans (⟨[], by simp⟩ : TraceExt st
    (st.IncrementTotal cs.length)) ?_
  exact populateTransitiveFold_traceExt recurse hrec cs _

end PopulateTransitiveLemmas

/-! ## Composition lemmas for `publishDepCore` -/

section PublishDepCoreLemmas

variable (recurse : PackageWithDeps → St → PackageWithDeps × St × Option String)
variable (env : Env) (targetRepo : String) (pwd : PackageWithDeps) (st : St)
variable (pathToModFile : String) (graphDependencies : List String)

theorem publishStage_failures_ge (pwd' : PackageWithDeps) (published : Bool)
    (s : St) : s.cache.failures ≤
      (publishStage env pwd' published s).cache.failures := by
  simp only [publishStage, PackageWithDeps.prepareAndPublish,
    Package.prepareAndPublish]
  repeat' split
  all_goals simp [St.mapSet]

theorem publishDepCore_entry_true
    (hrec : ∀ p s k, assocGet s.cache.depsMap k = some true →
      assocGet (recurse p s).2.1.cache.depsMap k = some true)
    (k : String) (h : assocGet st.cache.depsMap k = some true) :
    assocGet (publishDepCore recurse env targetRepo pwd st pathToModFile
      graphDependencies).2.cache.depsMap k = some true := by
  simp only [publishDepCore]
  apply publishStage_entry_true
  rw [revertStage_cache]
  have h₁ := expandGraphStage_entry_pres env targetRepo pwd st pathToModFile
    graphDependencies k true h
  split
  · rw [goCachePersistStage_cache]
    exact h₁
  · apply populateTransitive_entry_true recurse hrec
    rw [goCachePersistStage_cache]
    exact h₁

theorem publishDepCore_entry_isSome
    (hrec : ∀ p s k, (assocGet s.cache.depsMap k).isSome →
      (assocGet (recurse p s).2.1.cache.depsMap k).isSome)
    (k : String) (h : (assocGet st.cache.depsMap k).isSome) :
    (assocGet (publishDepCore recurse env targetRepo pwd st pathToModFile
      graphDependencies).2.cache.depsMap k).isSome := by
  simp only [publishDepCore]
  apply publishStage_entry_isSome
  rw [revertStage_cache]
  have h₁ : (assocGet (expandGraphStage env targetRepo pwd st pathToModFile
      graphDependencies).2.cache.depsMap k).isSome := by
    rw [Option.isSome_iff_exists] at h
    obtain ⟨b, hb⟩ := h
    rw [Option.isSome_iff_exists]
    exact ⟨b, expandGraphStage_entry_pres env targetRepo pwd st pathToModFile
      graphDependencies k b hb⟩
  split
  · rw [goCachePersistStage_cache]
    exact h₁
  · simp only [populateTransitive]
    apply populateTransitiveFold_entry_isSome recurse hrec
    simp only [IncrementTotal_depsMap, goCachePersistStage_cache]
    exact h₁

theorem publishDepCore_fuelOut_mono
    (hrec : ∀ p s, s.fuelOut = true → (recurse p s).2.1.fuelOut = true)
    (h : st.fuelOut = true) :
    (publishDepCore recurse env targetRepo pwd st pathToModFile
      graphDependencies).2.fuelOut = true := by
  simp only [publishDepCore]
  rw [publishStage_fuelOut, revertStage_fuelOut]
  have h₁ : (expandGraphStage env targetRepo pwd st pathToModFile
      graphDependencies).2.fuelOut = true := by
    rw [(expandGraphStage_counters env targetRepo pwd st pathToModFile
      graphDependencies).2.2.2.1]
    exact h
  split
  · rw [goCachePersistStage_fuelOut]
    exact h₁
  · simp only [populateTransitive]
    apply populateTransitiveFold_fuelOut_mono recurse hrec
    simp only [IncrementTotal_fuelOut, goCachePersistStage_fuelOut]
    exact h₁

theorem publishDepCore_goproxy_pres
    (hrec : ∀ p s, s.goproxySet = false → (recurse p s).2.1.goproxySet = false)
    (h : st.goproxySet = false) :
    (publishDepCore recurse env targetRepo pwd st pathToModFile
      graphDependencies).2.goproxySet = false := by
  simp only [publishDepCore]
  rw [publishStage_goproxySet, revertStage_goproxySet]
  have h₁ : (expandGraphStage env targetRepo pwd st pathToModFile
      graphDependencies).2.goproxySet = false := by
    rw [(expandGraphStage_counters env targetRepo pwd st pathToModFile
      graphDependencies).2.2.2.2.1]
    exact h
  split
  · rw [goCachePersistStage_goproxySet]
    exact h₁
  · simp only [populateTransitive]
    apply populateTransitiveFold_goproxy_pres recurse hrec
    simp only [IncrementTotal_goproxySet, goCachePersistStage_goproxySet]
    exact h₁

theorem publishDepCore_failures_ge
    (hrec : ∀ p s, s.cache.failures ≤ (recurse p s).2.1.cache.failures) :
    st.cache.failures ≤ (publishDepCore recurse env targetRepo pwd st
      pathToModFile graphDependencies).2.cache.failures := by
  simp only [publishDepCore]
  refine le_trans ?_ (publishStage_failures_ge env _ _ _)
  rw [revertStage_cache]
  have h₁ : st.cache.failures = (expandGraphStage env targetRepo pwd st
      pathToModFile graphDependencies).2.cache.failures :=
    ((expandGraphStage_counters env targetRepo pwd st pathToModFile
      graphDependencies).2.2.1).symm
  split
  · rw [goCachePersistStage_cache]
    exact le_of_eq h₁
  · simp only [populateTransitive]
    refine le_trans (le_of_eq h₁) ?_
    refine le_trans ?_ (populateTransitiveFold_failures_ge recurse hrec _ _)
    simp [goCachePersistStage_cache]

theorem publishDepCore_traceExt
    (hrec : ∀ p s, TraceExt s (recurse p s).2.1) :
    TraceExt st (publishDepCore recurse env targetRepo pwd st pathToModFile
      graphDependencies).2 := by
  simp only [publishDepCore]
  obtain ⟨t₁, ht₁, _⟩ := expandGraphStage_trace env targetRepo pwd st
    pathToModFile graphDependencies
  refine traceExt_trans (⟨t₁, ht₁⟩ : TraceExt st _) ?_
  refine traceExt_trans ?_ (publishStage_traceExt env _ _ _)
  refine traceExt_trans ?_ (revertStage_traceExt _ _ _ _)
  split
  · exact goCachePersistStage_traceExt _ _ _
  · exact traceExt_trans (goCachePersistStage_traceExt _ _ _)
      (populateTransitive_traceExt recurse hrec _ _)

end PublishDepCoreLemmas

/-! ## Fuel-inducted invariants of the full traversal -/

theorem publishDep_entry_true
    (recurse : PackageWithDeps → St → PackageWithDeps × St × Option String)
    (env : Env) (targetRepo : String) (pwd : PackageWithDeps) (st : St)
    (path : String) (deps : List String)
    (hrec : ∀ p s k, assocGet s.cache.depsMap k = some true →
      assocGet (recurse p s).2.1.cache.depsMap k = some true)
    (k : String) (h : assocGet st.cache.depsMap k = some true) :
    assocGet (publishDependencyAndPopulateTransitive recurse env targetRepo
      pwd st path deps).2.1.cache.depsMap k = some true := by
  simp only [publishDependencyAndPopulateTransitive]
  rw [removeAllStep_cache]
  exact publishDepCore_entry_true recurse env targetRepo pwd st path deps
    hrec k h

/-- Claim C6's engine: every operation of the resolver preserves a `true`
flag in the shared map — once published, always published. -/
theorem populate_entry_true :
    ∀ (fuel : Nat) (env : Env) (targetRepo : String) (pwd : PackageWithDeps)
      (st : St) (k : String),
      assocGet st.cache.depsMap k = some true →
      assocGet (PopulateModAndPublish fuel env targetRepo pwd
        st).2.1.cache.depsMap k = some true := by
  intro fuel
  induction fuel with
  | zero => intro env targetRepo pwd st k h; simpa using h
  | succ n ih =>
    intro env targetRepo pwd st k h
    simp only [PopulateModAndPublish]
    split
    · rcases hu : updateModContent env pwd (((st.emit
        (.startWork pwd.Dependency.id)).emit
        (.downloadModFromArt pwd.Dependency.id)))
        (env.downloadModPath ((strSplit pwd.Dependency.id ':').headD "")
          ((strSplit pwd.Dependency.id ':').getD 1 ""))
        with ⟨pwd₁, st₁, e₁⟩
      have hm : st₁.cache.depsMap = st.cache.depsMap := by
        have := updateModContent_depsMap env pwd (((st.emit
          (.startWork pwd.Dependency.id)).emit
          (.downloadModFromArt pwd.Dependency.id)))
          (env.downloadModPath ((strSplit pwd.Dependency.id ':').headD "")
            ((strSplit pwd.Dependency.id ':').getD 1 ""))
        rw [hu] at this
        simpa using this
      rcases hc : createDependencyAndPrepareMod env pwd₁ st₁
        with ⟨pwd₂, st₂, path₂, out₂, e₂⟩
      have hm₂ : st₂.cache.depsMap = st₁.cache.depsMap := by
        have := createDependencyAndPrepareMod_cache env pwd₁ st₁
        rw [hc] at this
        simpa using congrArg DependenciesCache.depsMap this
      exact publishDep_entry_true _ env targetRepo pwd₂ st₂ path₂ out₂
        (fun p s k' h' => ih env targetRepo p s k' h') k
        (by rw [hm₂, hm]; exact h)
    · rcases hc : createDependencyAndPrepareMod env pwd
        (st.emit (.startWork pwd.Dependency.id))
        with ⟨pwd₂, st₂, path₂, out₂, e₂⟩
      have hm₂ : st₂.cache.depsMap = st.cache.depsMap := by
        have := createDependencyAndPrepareMod_cache env pwd
          (st.emit (.startWork pwd.Dependency.id))
        rw [hc] at this
        simpa using congrArg DependenciesCache.depsMap this
      exact publishDep_entry_true _ env targetRepo pwd₂ st₂ path₂ out₂
        (fun p s k' h' => ih env targetRepo p s k' h') k
        (by rw [hm₂]; exact h)

theorem publishDep_entry_isSome
    (recurse : PackageWithDeps → St → PackageWithDeps × St × Option String)
    (env : Env) (targetRepo : String) (pwd : PackageWithDeps) (st : St)
    (path : String) (deps : List String)
    (hrec : ∀ p s k, (assocGet s.cache.depsMap k).isSome →
      (assocGet (recurse p s).2.1.cache.depsMap k).isSome)
    (k : String) (h : (assocGet st.cache.depsMap k).isSome) :
    (assocGet (publishDependencyAndPopulateTransitive recurse env targetRepo
      pwd st path deps).2.1.cache.depsMap k).isSome := by
  simp only [publishDependencyAndPopulateTransitive]
  rw [removeAllStep_cache]
  exact publishDepCore_entry_isSome recurse env targetRepo pwd st path deps
    hrec k h

theorem publishDep_fuelOut_mono
    (recurse : PackageWithDeps → St → PackageWithDeps × St × Option String)
    (env : Env) (targetRepo : String) (pwd : PackageWithDeps) (st : St)
    (path : String) (deps : List String)
    (hrec : ∀ p s, s.fuelOut = true → (recurse p s).2.1.fuelOut = true)
    (h : st.fuelOut = true) :
    (publishDependencyAndPopulateTransitive recurse env targetRepo
      pwd st path deps).2.1.fuelOut = true := by
  simp only [publishDependencyAndPopulateTransitive]
  rw [removeAllStep_fuelOut]
  exact publishDepCore_fuelOut_mono recurse env targetRepo pwd st path deps
    hrec h

theorem publishDep_goproxy_pres
    (recurse : PackageWithDeps → St → PackageWithDeps × St × Option String)
    (env : Env) (targetRepo : String) (pwd : PackageWithDeps) (st : St)
    (path : String) (deps : List String)
    (hrec : ∀ p s, s.goproxySet = false → (recurse p s).2.1.goproxySet = false)
    (h : st.goproxySet = false) :
    (publishDependencyAndPopulateTransitive recurse env targetRepo
      pwd st path deps).2.1.goproxySet = false := by
  simp only [publishDependencyAndPopulateTransitive]
  rw [removeAllStep_goproxySet]
  exact publishDepCore_goproxy_pres recurse env targetRepo pwd st path deps
    hrec h

theorem publishDep_failures_ge
    (recurse : PackageWithDeps → St → PackageWithDeps × St × Option String)
    (env : Env) (targetRepo : String) (pwd : PackageWithDeps) (st : St)
    (path : String) (deps : List String)
    (hrec : ∀ p s, s.cache.failures ≤ (recurse p s).2.1.cache.failures) :
    st.cache.failures ≤ (publishDependencyAndPopulateTransitive recurse env
      targetRepo pwd st path deps).2.1.cache.failures := by
  simp only [publishDependencyAndPopulateTransitive]
  rw [removeAllStep_cache]
  exact publishDepCore_failures_ge recurse env targetRepo pwd st path deps hrec

theorem publishDep_traceExt
    (recurse : PackageWithDeps → St → PackageWithDeps × St × Option String)
    (env : Env) (targetRepo : String) (pwd : PackageWithDeps) (st : St)
    (path : String) (deps : List String)
    (hrec : ∀ p s, TraceExt s (recurse p s).2.1) :
    TraceExt st (publishDependencyAndPopulateTransitive recurse env
      targetRepo pwd st path deps).2.1 := by
  simp only [publishDependencyAndPopulateTransitive]
  exact traceExt_trans
    (publishDepCore_traceExt recurse env targetRepo pwd st path deps hrec)
    (removeAllStep_traceExt env _ path)

theorem populate_entry_isSome :
    ∀ (fuel : Nat) (env : Env) (targetRepo : String) (pwd : PackageWithDeps)
      (st : St) (k : String),
      (assocGet st.cache.depsMap k).isSome →
      (assocGet (PopulateModAndPublish fuel env targetRepo pwd
        st).2.1.cache.depsMap k).isSome := by
  intro fuel
  induction fuel with
  | zero => intro env targetRepo pwd st k h; simpa using h
  | succ n ih =>
    intro env targetRepo pwd st k h
    simp only [PopulateModAndPublish]
    split
    · rcases hu : updateModContent env pwd (((st.emit
        (.startWork pwd.Dependency.id)).emit
        (.downloadModFromArt pwd.Dependency.id)))
        (env.downloadModPath ((strSplit pwd.Dependency.id ':').headD "")
          ((strSplit pwd.Dependency.id ':').getD 1 ""))
        with ⟨pwd₁, st₁, e₁⟩
      have hm : st₁.cache.depsMap = st.cache.depsMap := by
        have := updateModContent_depsMap env pwd (((st.emit
          (.startWork pwd.Dependency.id)).emit
          (.downloadModFromArt pwd.Dependency.id)))
          (env.downloadModPath ((strSplit pwd.Dependency.id ':').headD "")
            ((strSplit pwd.Dependency.id ':').getD 1 ""))
        rw [hu] at this
        simpa using this
      rcases hc : createDependencyAndPrepareMod env pwd₁ st₁
        with ⟨pwd₂, st₂, path₂, out₂, e₂⟩
      have hm₂ : st₂.cache.depsMap = st₁.cache.depsMap := by
        have := createDependencyAndPrepareMod_cache env pwd₁ st₁
        rw [hc] at this
        simpa using congrArg DependenciesCache.depsMap this
      exact publishDep_entry_isSome _ env targetRepo pwd₂ st₂ path₂ out₂
        (fun p s k' h' => ih env targetRepo p s k' h') k
        (by rw [hm₂, hm]; exact h)
    · rcases hc : createDependencyAndPrepareMod env pwd
        (st.emit (.startWork pwd.Dependency.id))
        with ⟨pwd₂, st₂, path₂, out₂, e₂⟩
      have hm₂ : st₂.cache.depsMap = st.cache.depsMap := by
        have := createDependencyAndPrepareMod_cache env pwd
          (st.emit (.startWork pwd.Dependency.id))
        rw [hc] at this
        simpa using congrArg DependenciesCache.depsMap this
      exact publishDep_entry_isSome _ env targetRepo pwd₂ st₂ path₂ out₂
        (fun p s k' h' => ih env targetRepo p s k' h') k
        (by rw [hm₂]; exact h)

theorem populate_fuelOut_mono :
    ∀ (fuel : Nat) (env : Env) (targetRepo : String) (pwd : PackageWithDeps)
      (st : St), st.fuelOut = true →
      (PopulateModAndPublish fuel env targetRepo pwd st).2.1.fuelOut = true := by
  intro fuel
  induction fuel with
  | zero => intro env targetRepo pwd st h; simp [PopulateModAndPublish]
  | succ n ih =>
    intro env targetRepo pwd st h
    simp only [PopulateModAndPublish]
    split
    · rcases hu : updateModContent env pwd (((st.emit
        (.startWork pwd.Dependency.id)).emit
        (.downloadModFromArt pwd.Dependency.id)))
        (env.downloadModPath ((strSplit pwd.Dependency.id ':').headD "")
          ((strSplit pwd.Dependency.id ':').getD 1 ""))
        with ⟨pwd₁, st₁, e₁⟩
      have hm : st₁.fuelOut = true := by
        have := updateModContent_fuelOut env pwd (((st.emit
          (.startWork pwd.Dependency.id)).emit
          (.downloadModFromArt pwd.Dependency.id)))
          (env.downloadModPath ((strSplit pwd.Dependency.id ':').headD "")
            ((strSplit pwd.Dependency.id ':').getD 1 ""))
        rw [hu] at this
        simpa [h] using this
      rcases hc : createDependencyAndPrepareMod env pwd₁ st₁
        with ⟨pwd₂, st₂, path₂, out₂, e₂⟩
      have hm₂ : st₂.fuelOut = true := by
        have := createDependencyAndPrepareMod_fuelOut env pwd₁ st₁
        rw [hc] at this
        simpa [hm] using this
      exact publishDep_fuelOut_mono _ env targetRepo pwd₂ st₂ path₂ out₂
        (fun p s h' => ih env targetRepo p s h') hm₂
    · rcases hc : createDependencyAndPrepareMod env pwd
        (st.emit (.startWork pwd.Dependency.id))
        with ⟨pwd₂, st₂, path₂, out₂, e₂⟩
      have hm₂ : st₂.fuelOut = true := by
        have := createDependencyAndPrepareMod_fuelOut env pwd
          (st.emit (.startWork pwd.Dependency.id))
        rw [hc] at this
        simpa [h] using this
      exact publishDep_fuelOut_mono _ env targetRepo pwd₂ st₂ path₂ out₂
        (fun p s h' => ih env targetRepo p s h') hm₂

theorem populate_goproxy_pres :
    ∀ (fuel : Nat) (env : Env) (targetRepo : String) (pwd : PackageWithDeps)
      (st : St), st.goproxySet = false →
      (PopulateModAndPublish fuel env targetRepo pwd st).2.1.goproxySet =
        false := by
  intro fuel
  induction fuel with
  | zero => intro env targetRepo pwd st h; simpa using h
  | succ n ih =>
    intro env targetRepo pwd st h
    simp only [PopulateModAndPublish]
    split
    · rcases hu : updateModContent env pwd (((st.emit
        (.startWork pwd.Dependency.id)).emit
        (.downloadModFromArt pwd.Dependency.id)))
        (env.downloadModPath ((strSplit pwd.Dependency.id ':').headD "")
          ((strSplit pwd.Dependency.id ':').getD 1 ""))
        with ⟨pwd₁, st₁, e₁⟩
      have hm : st₁.goproxySet = false := by
        have := updateModContent_goproxySet env pwd (((st.emit
          (.startWork pwd.Dependency.id)).emit
          (.downloadModFromArt pwd.Dependency.id)))
          (env.downloadModPath ((strSplit pwd.Dependency.id ':').headD "")
            ((strSplit pwd.Dependency.id ':').getD 1 ""))
        rw [hu] at this
        simpa [h] using this
      rcases hc : createDependencyAndPrepareMod env pwd₁ st₁
        with ⟨pwd₂, st₂, path₂, out₂, e₂⟩
      have hm₂ : st₂.goproxySet = false := by
        have := createDependencyAndPrepareMod_goproxySet env pwd₁ st₁
        rw [hc] at this
        simpa using this
      exact publishDep_goproxy_pres _ env targetRepo pwd₂ st₂ path₂ out₂
        (fun p s h' => ih env targetRepo p s h') hm₂
    · rcases hc : createDependencyAndPrepareMod env pwd
        (st.emit (.startWork pwd.Dependency.id))
        with ⟨pwd₂, st₂, path₂, out₂, e₂⟩
      have hm₂ : st₂.goproxySet = false := by
        have := createDependencyAndPrepareMod_goproxySet env pwd
          (st.emit (.startWork pwd.Dependency.id))
        rw [hc] at this
        simpa using this
      exact publishDep_goproxy_pres _ env targetRepo pwd₂ st₂ path₂ out₂
        (fun p s h' => ih env targetRepo p s h') hm₂

theorem populate_failures_ge :
    ∀ (fuel : Nat) (env : Env) (targetRepo : String) (pwd : PackageWithDeps)
      (st : St), st.cache.failures ≤
      (PopulateModAndPublish fuel env targetRepo pwd st).2.1.cache.failures := by
  intro fuel
  induction fuel with
  | zero => intro env targetRepo pwd st; simp [PopulateModAndPublish]
  | succ n ih =>
    intro env targetRepo pwd st
    simp only [PopulateModAndPublish]
    split
    · rcases hu : updateModContent env pwd (((st.emit
        (.startWork pwd.Dependency.id)).emit
        (.downloadModFromArt pwd.Dependency.id)))
        (env.downloadModPath ((strSplit pwd.Dependency.id ':').headD "")
          ((strSplit pwd.Dependency.id ':').getD 1 ""))
        with ⟨pwd₁, st₁, e₁⟩
      have hm : st.cache.failures ≤ st₁.cache.failures := by
        have := updateModContent_failures_ge env pwd (((st.emit
          (.startWork pwd.Dependency.id)).emit
          (.downloadModFromArt pwd.Dependency.id)))
          (env.downloadModPath ((strSplit pwd.Dependency.id ':').headD "")
            ((strSplit pwd.Dependency.id ':').getD 1 ""))
        rw [hu] at this
        simpa using this
      rcases hc : createDependencyAndPrepareMod env pwd₁ st₁
        with ⟨pwd₂, st₂, path₂, out₂, e₂⟩
      have hm₂ : st₂.cache.failures = st₁.cache.failures := by
        have := createDependencyAndPrepareMod_cache env pwd₁ st₁
        rw [hc] at this
        simpa using congrArg DependenciesCache.failures this
      refine le_trans hm ?_
      rw [← hm₂]
      exact publishDep_failures_ge _ env targetRepo pwd₂ st₂ path₂ out₂
        (fun p s => ih env targetRepo p s)
    · rcases hc : createDependencyAndPrepareMod env pwd
        (st.emit (.startWork pwd.Dependency.id))
        with ⟨pwd₂, st₂, path₂, out₂, e₂⟩
      have hm₂ : st₂.cache.failures = st.cache.failures := by
        have := createDependencyAndPrepareMod_cache env pwd
          (st.emit (.startWork pwd.Dependency.id))
        rw [hc] at this
        simpa using congrArg DependenciesCache.failures this
      rw [← hm₂]
      exact publishDep_failures_ge _ env targetRepo pwd₂ st₂ path₂ out₂
        (fun p s => ih env targetRepo p s)

theorem populate_traceExt :
    ∀ (fuel : Nat) (env : Env) (targetRepo : String) (pwd : PackageWithDeps)
      (st : St),
      TraceExt st (PopulateModAndPublish fuel env targetRepo pwd st).2.1 := by
  intro fuel
  induction fuel with
  | zero => intro env targetRepo pwd st; exact ⟨[], by simp [PopulateModAndPublish]⟩
  | succ n ih =>
    intro env targetRepo pwd st
    simp only [PopulateModAndPublish]
    split
    · rcases hu : updateModContent env pwd (((st.emit
        (.startWork pwd.Dependency.id)).emit
        (.downloadModFromArt pwd.Dependency.id)))
        (env.downloadModPath ((strSplit pwd.Dependency.id ':').headD "")
          ((strSplit pwd.Dependency.id ':').getD 1 ""))
        with ⟨pwd₁, st₁, e₁⟩
      have hm : TraceExt st st₁ := by
        have h₀ : TraceExt st ((st.emit
            (.startWork pwd.Dependency.id)).emit
            (.downloadModFromArt pwd.Dependency.id)) := ⟨_, by simp <;> rfl⟩
        have := updateModContent_traceExt env pwd (((st.emit
          (.startWork pwd.Dependency.id)).emit
          (.downloadModFromArt pwd.Dependency.id)))
          (env.downloadModPath ((strSplit pwd.Dependency.id ':').headD "")
            ((strSplit pwd.Dependency.id ':').getD 1 ""))
        rw [hu] at this
        exact traceExt_trans h₀ this
      rcases hc : createDependencyAndPrepareMod env pwd₁ st₁
        with ⟨pwd₂, st₂, path₂, out₂, e₂⟩
      have hm₂ : TraceExt st₁ st₂ := by
        have := createDependencyAndPrepareMod_traceExt env pwd₁ st₁
        rwa [hc] at this
      exact traceExt_trans hm (traceExt_trans hm₂
        (publishDep_traceExt _ env targetRepo pwd₂ st₂ path₂ out₂
          (fun p s => ih env targetRepo p s)))
    · rcases hc : createDependencyAndPrepareMod env pwd
        (st.emit (.startWork pwd.Dependency.id))
        with ⟨pwd₂, st₂, path₂, out₂, e₂⟩
      have hm₂ : TraceExt st st₂ := by
        have h₀ : TraceExt st (st.emit (.startWork pwd.Dependency.id)) :=
          ⟨_, by simp <;> rfl⟩
        have := createDependencyAndPrepareMod_traceExt env pwd
          (st.emit (.startWork pwd.Dependency.id))
        rw [hc] at this
        exact traceExt_trans h₀ this
      exact traceExt_trans hm₂
        (publishDep_traceExt _ env targetRepo pwd₂ st₂ path₂ out₂
          (fun p s => ih env targetRepo p s))

/-! ## Observation helpers for the claim theorems -/

/-- Is an event a `go mod tidy` invocation? -/
def isTidyEv : Ev → Bool
  | .goModTidy _ => true
  | _ => false

/-- Is an event a `go mod init` invocation? -/
def isInitEv : Ev → Bool
  | .goModInit _ _ => true
  | _ => false

/-- Is an event a publish call to the artifact repository? -/
def isPublishEv : Ev → Bool
  | .publish _ _ => true
  | _ => false

/-- Is an event the skip of an already-published child? -/
def isSkipEv : Ev → Bool
  | .skipPublished _ => true
  | _ => false

/-- The number of nodes skipped because already published, read off the
trace. -/
def countSkip (t : List Ev) : Nat :=
  (t.filter isSkipEv).length

/-- The content of the last write to path `p` in the trace, if any: what a
reader of the file sees once the run is over. -/
def lastWrite (t : List Ev) (p : String) : Option String :=
  t.foldl
    (fun acc e =>
      match e with
      | .writeFile q c => if q = p then some c else acc
      | _ => acc)
    none

@[simp] theorem writeModContentToGoCache_trace (pwd : PackageWithDeps)
    (st : St) : (writeModContentToGoCache pwd st).1.trace =
      st.trace ++ [.writeFile (goModCachePath pwd.cachePath pwd.Dependency.id)
        pwd.Dependency.modContent] := rfl

theorem goCachePersistStage_cwd (pwd : PackageWithDeps) (published : Bool)
    (st : St) : (goCachePersistStage pwd published st).cwd = st.cwd := by
  simp only [goCachePersistStage]
  repeat' split
  all_goals simp [writeModContentToGoCache]

theorem revertStage_cwd (pwd : PackageWithDeps) (published : Bool) (st : St)
    (path : String) : (revertStage pwd published st path).2.cwd = st.cwd := by
  simp only [revertStage]
  repeat' split
  all_goals simp [writeModContentToGoCache]

@[simp] theorem IncrementTotal_cwd (st : St) (n : Nat) :
    (st.IncrementTotal n).cwd = st.cwd := rfl

@[simp] theorem IncrementSuccess_cwd (st : St) :
    st.IncrementSuccess.cwd = st.cwd := rfl

@[simp] theorem IncrementFailures_cwd (st : St) :
    st.IncrementFailures.cwd = st.cwd := rfl

theorem publishStage_cwd (env : Env) (pwd : PackageWithDeps)
    (published : Bool) (st : St) :
    (publishStage env pwd published st).cwd = st.cwd := by
  simp only [publishStage, PackageWithDeps.prepareAndPublish,
    Package.prepareAndPublish]
  repeat' split
  all_goals simp [St.mapSet]

/-! ## Helper lemmas feeding the claim theorems -/

/-- `publishDependencyAndPopulateTransitive` returns a nil error by
construction (line 269). -/
theorem publishDep_err_none
    (recurse : PackageWithDeps → St → PackageWithDeps × St × Option String)
    (env : Env) (targetRepo : String) (pwd : PackageWithDeps) (st : St)
    (path : String) (deps : List String) :
    (publishDependencyAndPopulateTransitive recurse env targetRepo pwd st
      path deps).2.2 = none := rfl

/-- `PopulateModAndPublish` returns a nil error on every path (line 65). -/
theorem populate_err_none (fuel : Nat) (env : Env) (targetRepo : String)
    (pwd : PackageWithDeps) (st : St) :
    (PopulateModAndPublish fuel env targetRepo pwd st).2.2 = none := by
  cases fuel with
  | zero => rfl
  | succ n =>
    simp only [PopulateModAndPublish]
    split
    · rcases hu : updateModContent env pwd (((st.emit
        (.startWork pwd.Dependency.id)).emit
        (.downloadModFromArt pwd.Dependency.id)))
        (env.downloadModPath ((strSplit pwd.Dependency.id ':').headD "")
          ((strSplit pwd.Dependency.id ':').getD 1 ""))
        with ⟨pwd₁, st₁, e₁⟩
      rcases hc : createDependencyAndPrepareMod env pwd₁ st₁
        with ⟨pwd₂, st₂, path₂, out₂, e₂⟩
      rfl
    · rcases hc : createDependencyAndPrepareMod env pwd
        (st.emit (.startWork pwd.Dependency.id))
        with ⟨pwd₂, st₂, path₂, out₂, e₂⟩
      rfl

/-- The first event of every populate-and-publish call with fuel left is
the `startWork` log for its own package (line 45). -/
theorem populate_startWork_first (n : Nat) (env : Env) (targetRepo : String)
    (pwd : PackageWithDeps) (st : St) :
    ∃ t, (PopulateModAndPublish (n + 1) env targetRepo pwd st).2.1.trace =
      st.trace ++ Ev.startWork pwd.Dependency.id :: t := by
  have hext : TraceExt (st.emit (.startWork pwd.Dependency.id))
      (PopulateModAndPublish (n + 1) env targetRepo pwd st).2.1 := by
    simp only [PopulateModAndPublish]
    split
    · rcases hu : updateModContent env pwd (((st.emit
        (.startWork pwd.Dependency.id)).emit
        (.downloadModFromArt pwd.Dependency.id)))
        (env.downloadModPath ((strSplit pwd.Dependency.id ':').headD "")
          ((strSplit pwd.Dependency.id ':').getD 1 ""))
        with ⟨pwd₁, st₁, e₁⟩
      have hm : TraceExt (st.emit (.startWork pwd.Dependency.id)) st₁ := by
        have h₀ : TraceExt (st.emit (.startWork pwd.Dependency.id))
            ((st.emit (.startWork pwd.Dependency.id)).emit
              (.downloadModFromArt pwd.Dependency.id)) := ⟨_, by simp <;> rfl⟩
        have := updateModContent_traceExt env pwd (((st.emit
          (.startWork pwd.Dependency.id)).emit
          (.downloadModFromArt pwd.Dependency.id)))
          (env.downloadModPath ((strSplit pwd.Dependency.id ':').headD "")
            ((strSplit pwd.Dependency.id ':').getD 1 ""))
        rw [hu] at this
        exact traceExt_trans h₀ this
      rcases hc : createDependencyAndPrepareMod env pwd₁ st₁
        with ⟨pwd₂, st₂, path₂, out₂, e₂⟩
      have hm₂ : TraceExt st₁ st₂ := by
        have := createDependencyAndPrepareMod_traceExt env pwd₁ st₁
        rwa [hc] at this
      exact traceExt_trans hm (traceExt_trans hm₂
        (publishDep_traceExt _ env targetRepo pwd₂ st₂ path₂ out₂
          (fun p s => populate_traceExt n env targetRepo p s)))
    · rcases hc : createDependencyAndPrepareMod env pwd
        (st.emit (.startWork pwd.Dependency.id))
        with ⟨pwd₂, st₂, path₂, out₂, e₂⟩
      have hm₂ : TraceExt (st.emit (.startWork pwd.Dependency.id)) st₂ := by
        have := createDependencyAndPrepareMod_traceExt env pwd
          (st.emit (.startWork pwd.Dependency.id))
        rwa [hc] at this
      exact traceExt_trans hm₂
        (publishDep_traceExt _ env targetRepo pwd₂ st₂ path₂ out₂
          (fun p s => populate_traceExt n env targetRepo p s))
  obtain ⟨t, ht⟩ := hext
  refine ⟨t, ?_⟩
  rw [ht]
  simp

/-! ## Claim theorems -/

/-- A concrete environment whose publish call always fails. -/
def envPublishError : Env :=
  { baseEnv with publishOk := fun _ => some "publish failed" }

/-- C1 counterexample: with a failing publish call, the wrapper
`prepareAndPublish` still marks the id `true` in the shared map while
returning the error — the claim "if the publish call returns an error, the
cache entry is not marked published=true" is false on the code
(line 276 runs unconditionally). -/
theorem C1_counterexample :
    (PackageWithDeps.prepareAndPublish envPublishError pwdFoo st0).2 =
      some "publish failed" ∧
    assocGet (PackageWithDeps.prepareAndPublish envPublishError pwdFoo
      st0).1.cache.depsMap "example.com/foo:v1.0.0" = some true :=
  ⟨rfl, rfl⟩

/-- C1 amended: the cache entry is set `true` immediately after the publish
call has returned — the repository call strictly precedes the marking in
the trace — but the marking happens regardless of whether the call
succeeded; the publish error is returned unchanged. -/
theorem C1_mark_always_after_publish_returns (env : Env)
    (pwd : PackageWithDeps) (st : St) :
    (PackageWithDeps.prepareAndPublish env pwd st).1.trace =
      st.trace ++ [.publish pwd.Dependency.id pwd.Dependency.modContent,
        .cacheWrite pwd.Dependency.id true] ∧
    assocGet (PackageWithDeps.prepareAndPublish env pwd
      st).1.cache.depsMap pwd.Dependency.id = some true ∧
    (PackageWithDeps.prepareAndPublish env pwd st).2 =
      env.publishOk pwd.Dependency.id := by
  refine ⟨pwdPrepareAndPublish_trace env pwd st, ?_, ?_⟩
  · rw [pwdPrepareAndPublish_depsMap]
    exact assocGet_set_self _ _ _
  · simp only [PackageWithDeps.prepareAndPublish, Package.prepareAndPublish]
    repeat' split
    all_goals simp_all

/-- C5: an edge that does not split into exactly two parts on `'@'` is
skipped: expanding `e :: edges` is literally the same as expanding `edges`
alone — no child, no cache write, no error, and the remaining edges are
processed exactly as they otherwise would be. -/
theorem C5_malformed_edge_skipped (env : Env) (targetRepo : String)
    (pwd : PackageWithDeps) (st : St) (e : String) (edges : List String)
    (h : (strSplit e '@').length ≠ 2) :
    setTransitiveDependencies env targetRepo pwd st (e :: edges) =
      setTransitiveDependencies env targetRepo pwd st edges := by
  simp only [setTransitiveDependencies, List.foldl_cons]
  have hstep : setTransitiveStep env targetRepo pwd ([], st) e = ([], st) := by
    simp only [setTransitiveStep]
    split
    case h_1 mp mv hsp =>
      exfalso
      apply h
      rw [hsp]
      rfl
    case h_2 => rfl
  rw [hstep]

/-- C5 witness: the malformed edge `"badedge"` of Scenario 3. -/
theorem C5_witness :
    ((strSplit "badedge" '@').length ≠ 2) ∧
    (setTransitiveDependencies baseEnv "repo" pwdFoo st0
      ["badedge", "example.com/bar@v2.0.0"] =
     setTransitiveDependencies baseEnv "repo" pwdFoo st0
      ["example.com/bar@v2.0.0"]) :=
  ⟨by decide, C5_malformed_edge_skipped baseEnv "repo" pwdFoo st0 "badedge"
    ["example.com/bar@v2.0.0"] (by decide)⟩

/-- C6: the published flag is monotone.  (i) every populate-and-publish
run preserves a `true` binding in the shared map; (ii) transitive
expansion preserves every existing binding exactly (its only write is the
creation of an absent entry); (iii) the only other write is the
unconditional marking `true` after the publish step. -/
theorem C6_published_flag_monotone :
    (∀ (fuel : Nat) (env : Env) (targetRepo : String)
      (pwd : PackageWithDeps) (st : St) (k : String),
      assocGet st.cache.depsMap k = some true →
      assocGet (PopulateModAndPublish fuel env targetRepo pwd
        st).2.1.cache.depsMap k = some true) ∧
    (∀ (env : Env) (targetRepo : String) (pwd : PackageWithDeps) (st : St)
      (edges : List String) (k : String) (b : Bool),
      assocGet st.cache.depsMap k = some b →
      assocGet (setTransitiveDependencies env targetRepo pwd st
        edges).2.cache.depsMap k = some b) ∧
    (∀ (env : Env) (pwd : PackageWithDeps) (st : St),
      (PackageWithDeps.prepareAndPublish env pwd st).1.cache.depsMap =
        assocSet st.cache.depsMap pwd.Dependency.id true) :=
  ⟨populate_entry_true, setTransitiveDependencies_entry_pres,
    pwdPrepareAndPublish_depsMap⟩

/-- C6 witness: a run over an already-published package leaves its `true`
binding in place. -/
theorem C6_witness :
    (assocGet stFooPublished.cache.depsMap "example.com/foo:v1.0.0" =
      some true) ∧
    assocGet ((PopulateModAndPublish 2 baseEnv "repo" pwdFoo
      stFooPublished).2.1.cache.depsMap) "example.com/foo:v1.0.0" =
      some true :=
  ⟨rfl, C6_published_flag_monotone.1 2 baseEnv "repo" pwdFoo stFooPublished
    "example.com/foo:v1.0.0" rfl⟩

/-- C7: (i) the top-level populate-and-publish returns a nil error for
every input, every fuel and every oracle outcome; (ii) the outcome of the
final `os.RemoveAll` — controlled by the `removeAllOk` oracle — changes
neither the returned node and error nor the shared cache (map and
counters) nor the emitted trace: a cleanup failure is logged (the
`removeAll` event is emitted either way) and swallowed. -/
theorem C7_returns_nil_and_cleanup_is_frame :
    (∀ (fuel : Nat) (env : Env) (targetRepo : String)
      (pwd : PackageWithDeps) (st : St),
      (PopulateModAndPublish fuel env targetRepo pwd st).2.2 = none) ∧
    (∀ (recurse : PackageWithDeps → St → PackageWithDeps × St × Option String)
      (env : Env) (f : String → Bool) (targetRepo : String)
      (pwd : PackageWithDeps) (st : St) (path : String) (deps : List String),
      (publishDependencyAndPopulateTransitive recurse
        { env with removeAllOk := f } targetRepo pwd st path deps).1 =
        (publishDependencyAndPopulateTransitive recurse env targetRepo pwd
          st path deps).1 ∧
      (publishDependencyAndPopulateTransitive recurse
        { env with removeAllOk := f } targetRepo pwd st path deps).2.2 =
        (publishDependencyAndPopulateTransitive recurse env targetRepo pwd
          st path deps).2.2 ∧
      (publishDependencyAndPopulateTransitive recurse
        { env with removeAllOk := f } targetRepo pwd st path deps).2.1.cache =
        (publishDependencyAndPopulateTransitive recurse env targetRepo pwd
          st path deps).2.1.cache ∧
      (publishDependencyAndPopulateTransitive recurse
        { env with removeAllOk := f } targetRepo pwd st path deps).2.1.trace =
        (publishDependencyAndPopulateTransitive recurse env targetRepo pwd
          st path deps).2.1.trace) := by
  constructor
  · exact populate_err_none
  · intro recurse env f targetRepo pwd st path deps
    have hcore : publishDepCore recurse { env with removeAllOk := f }
        targetRepo pwd st path deps =
        publishDepCore recurse env targetRepo pwd st path deps := rfl
    refine ⟨?_, rfl, ?_, ?_⟩
    · simp only [publishDependencyAndPopulateTransitive, hcore]
    · simp only [publishDependencyAndPopulateTransitive, hcore,
        removeAllStep_cache]
    · simp only [publishDependencyAndPopulateTransitive, hcore,
        removeAllStep_trace]

/-- C4: (i) every child materialized by transitive expansion shares the
parent's matcher, cache path, tidy selector and edit message, and its id
is recorded in the shared map with the existence-probe result as flag at
the moment expansion returns; (ii) expansion appends only cache-write
events to the trace — no populate of any node is begun during it; (iii)
a populate-and-publish call always logs its `startWork` event first, so a
child's recorded entry (i) exists strictly before any `startWork` of that
child can be emitted by the later traversal. -/
theorem C4_child_recorded_before_populate :
    (∀ (env : Env) (targetRepo : String) (pwd : PackageWithDeps) (st : St)
      (edges : List String),
      ∀ c ∈ (setTransitiveDependencies env targetRepo pwd st edges).1,
        ChildShape env targetRepo pwd edges
          ((setTransitiveDependencies env targetRepo pwd st
            edges).2.cache.depsMap) c) ∧
    (∀ (env : Env) (targetRepo : String) (pwd : PackageWithDeps) (st : St)
      (edges : List String),
      ∃ t, (setTransitiveDependencies env targetRepo pwd st edges).2.trace =
        st.trace ++ t ∧ OnlyCacheWrites t) ∧
    (∀ (n : Nat) (env : Env) (targetRepo : String) (pwd : PackageWithDeps)
      (st : St),
      ∃ t, (PopulateModAndPublish (n + 1) env targetRepo pwd st).2.1.trace =
        st.trace ++ Ev.startWork pwd.Dependency.id :: t) :=
  ⟨setTransitiveDependencies_shape, setTransitiveDependencies_trace,
    populate_startWork_first⟩

/-- The child node materialized for the edge `"example.com/bar@v2.0.0"`
under `baseEnv`. -/
def childBarDep : Package where
  id := "example.com/bar:v2.0.0"
  modContent := ""
  zipPath := "example.com/bar@v2.0.0.zip"

/-- The resolver node for `childBarDep` as built at line 313. -/
def childBar : PackageWithDeps where
  Dependency := childBarDep
  regExp := testRegExp
  cachePath := "/gocache"
  GoModEditMessage := "// Generated by JFrog"

/-- C4 witness: a concrete expansion materializes `childBar`, and it has
the claimed shape with its id mapped to the probe result `false`. -/
theorem C4_witness :
    (childBar ∈ (setTransitiveDependencies baseEnv "repo" pwdFoo st0
      ["example.com/bar@v2.0.0"]).1) ∧
    ChildShape baseEnv "repo" pwdFoo ["example.com/bar@v2.0.0"]
      ((setTransitiveDependencies baseEnv "repo" pwdFoo st0
        ["example.com/bar@v2.0.0"]).2.cache.depsMap) childBar := by
  have hlist : (setTransitiveDependencies baseEnv "repo" pwdFoo st0
      ["example.com/bar@v2.0.0"]).1 = [childBar] := rfl
  have hmem : childBar ∈ (setTransitiveDependencies baseEnv "repo" pwdFoo st0
      ["example.com/bar@v2.0.0"]).1 := by
    rw [hlist]
    exact List.mem_singleton.mpr rfl
  exact ⟨hmem, C4_child_recorded_before_populate.1 baseEnv "repo" pwdFoo st0
    ["example.com/bar@v2.0.0"] childBar hmem⟩

/-! ## C3: the already-published empty-manifest branch -/

@[simp] theorem PatternMatched_revertUpdate (pwd : PackageWithDeps) (b : Bool)
    (r : String → Bool) :
    (PackageWithDeps.PatternMatched { pwd with shouldRevertToEmptyMod := b }
      r) = pwd.PatternMatched r := rfl

@[simp] theorem regExp_revertUpdate (pwd : PackageWithDeps) (b : Bool) :
    ({ pwd with shouldRevertToEmptyMod := b } : PackageWithDeps).regExp =
      pwd.regExp := rfl

theorem getModPathAndUnzipDependency_trace (env : Env)
    (pwd : PackageWithDeps) (st : St) :
    (getModPathAndUnzipDependency env pwd st).1.trace =
      st.trace ++ [.unsetGoproxy, .unzip pwd.Dependency.zipPath] := by
  simp only [getModPathAndUnzipDependency]
  repeat' split
  all_goals simp

theorem getModPathAndUnzipDependency_err_of_ok (env : Env)
    (pwd : PackageWithDeps) (st : St)
    (h : env.unzipOk pwd.Dependency.zipPath = true) :
    (getModPathAndUnzipDependency env pwd st).2.2 = none := by
  simp only [getModPathAndUnzipDependency, h]
  repeat' split
  all_goals simp_all

theorem populateModWithTidy_trace (env : Env) (st : St) (path : String) :
    (populateModWithTidy env st path).1.trace =
      st.trace ++ [.goModTidy path] := by
  simp only [populateModWithTidy]
  repeat' split
  all_goals simp

theorem runGoModGraph_trace (env : Env) (st : St) :
    (runGoModGraph env st).1.trace = st.trace ++ [.goModGraph st.cwd] := by
  simp only [runGoModGraph]
  repeat' split
  all_goals simp

theorem writeModContentToModFile_cwd2 (st : St) (p c : String) :
    (writeModContentToModFile st p c).cwd = st.cwd := rfl

/-- C3 counterexample: `pkgFoo` is marked published and its stored manifest
is empty, yet its populate-and-publish run invokes `go mod tidy` — the
claim's "zero tidy … calls" and "tidy is not invoked" are false on the code
(line 129's re-check also fires in the published branch).  Init and
publish are indeed not invoked. -/
theorem C3_counterexample :
    stFooPublished.mapGetD "example.com/foo:v1.0.0" = true ∧
    ((PopulateModAndPublish 2 baseEnv "repo" pwdFoo
      stFooPublished).2.1.trace.any isTidyEv = true) ∧
    ((PopulateModAndPublish 2 baseEnv "repo" pwdFoo
      stFooPublished).2.1.trace.any isInitEv = false) ∧
    ((PopulateModAndPublish 2 baseEnv "repo" pwdFoo
      stFooPublished).2.1.trace.any isPublishEv = false) :=
  ⟨rfl, rfl, rfl, rfl⟩

/-- The exact behaviour of `createDependencyAndPrepareMod` on an
already-published package with an empty stored manifest: the in-memory
content is used verbatim (never replaced), no init runs, and the exact
events are unzip, the verbatim write, a tidy invocation and the graph
computation. -/
theorem create_published_empty_trace (env : Env) (pwd : PackageWithDeps)
    (st : St) (hpub : st.mapGetD pwd.Dependency.id = true)
    (hempty : pwd.PatternMatched pwd.regExp.GetNotEmptyModRegex = false)
    (hunzip : env.unzipOk pwd.Dependency.zipPath = true) :
    (createDependencyAndPrepareMod env pwd st).1.Dependency.modContent =
      pwd.Dependency.modContent ∧
    ∃ p cw, (createDependencyAndPrepareMod env pwd st).2.1.trace =
      st.trace ++ [.unsetGoproxy, .unzip pwd.Dependency.zipPath,
        .writeFile p pwd.Dependency.modContent, .goModTidy p,
        .goModGraph cw] := by
  simp only [createDependencyAndPrepareMod]
  rcases hg : getModPathAndUnzipDependency env pwd st with ⟨st₁, path, err⟩
  have herr : err = none := by
    have := getModPathAndUnzipDependency_err_of_ok env pwd st hunzip
    rw [hg] at this
    exact this
  subst herr
  have htr₁ : st₁.trace = st.trace ++ [.unsetGoproxy,
      .unzip pwd.Dependency.zipPath] := by
    have := getModPathAndUnzipDependency_trace env pwd st
    rw [hg] at this
    exact this
  have hc₁ : st₁.cache = st.cache := by
    have := getModPathAndUnzipDependency_cache env pwd st
    rw [hg] at this
    exact this
  have hpub₁ : st₁.mapGetD pwd.Dependency.id = true := by
    simp only [St.mapGetD, hc₁]
    exact hpub
  simp only [PatternMatched_revertUpdate, regExp_revertUpdate, hempty,
    hpub₁, Bool.not_true, Bool.not_false, Bool.false_eq_true, if_false,
    if_true]
  rcases ht : populateModWithTidy env
    (writeModContentToModFile st₁ path pwd.Dependency.modContent) path
    with ⟨st₃, e₃⟩
  have htr₃ : st₃.trace = st₁.trace ++
      [.writeFile path pwd.Dependency.modContent, .goModTidy path] := by
    have := populateModWithTidy_trace env
      (writeModContentToModFile st₁ path pwd.Dependency.modContent) path
    rw [ht] at this
    simpa using this
  rcases hgr : runGoModGraph env st₃ with ⟨st₄, out, e₄⟩
  have htr₄ : st₄.trace = st₃.trace ++ [.goModGraph st₃.cwd] := by
    have := runGoModGraph_trace env st₃
    rw [hgr] at this
    exact this
  refine ⟨by trivial, path, st₃.cwd, ?_⟩
  rw [htr₄, htr₃, htr₁]
  simp

/-- C3 amended: (i) a package already marked published when the traversal
reaches it is skipped with exactly one success-counter increment and a log
event — no recursion, no publish, no tidy, no init; (ii) in the
empty-manifest branch of an already-published package the stored content is
used verbatim (the in-memory manifest is unchanged) and init is not
invoked, but tidy *is* still invoked on the workspace copy. -/
theorem C3_skip_only_counts_but_tidy_still_runs :
    (∀ (recurse : PackageWithDeps → St → PackageWithDeps × St × Option String)
      (st : St) (c : PackageWithDeps),
      st.mapGetD c.Dependency.id = true →
      populateTransitiveVisit recurse st c =
        (st.IncrementSuccess).emit (.skipPublished c.Dependency.id)) ∧
    (∀ (env : Env) (pwd : PackageWithDeps) (st : St),
      st.mapGetD pwd.Dependency.id = true →
      pwd.PatternMatched pwd.regExp.GetNotEmptyModRegex = false →
      env.unzipOk pwd.Dependency.zipPath = true →
      (createDependencyAndPrepareMod env pwd st).1.Dependency.modContent =
        pwd.Dependency.modContent ∧
      ∃ t, (createDependencyAndPrepareMod env pwd st).2.1.trace =
        st.trace ++ t ∧ t.any isInitEv = false ∧ t.any isTidyEv = true) := by
  constructor
  · intro recurse st c h
    simp only [populateTransitiveVisit, h]
    rfl
  · intro env pwd st hpub hempty hunzip
    obtain ⟨hcontent, p, cw, htr⟩ :=
      create_published_empty_trace env pwd st hpub hempty hunzip
    refine ⟨hcontent, [.unsetGoproxy, .unzip pwd.Dependency.zipPath,
      .writeFile p pwd.Dependency.modContent, .goModTidy p,
      .goModGraph cw], htr, by simp [isInitEv], by simp [isTidyEv]⟩

/-- C3 witness for the amended claim, at the concrete already-published
empty `pkgFoo`. -/
theorem C3_witness :
    (stFooPublished.mapGetD "example.com/foo:v1.0.0" = true ∧
      populateTransitiveVisit (fun p s => (p, s, none)) stFooPublished pwdFoo =
        (stFooPublished.IncrementSuccess).emit
          (.skipPublished "example.com/foo:v1.0.0")) ∧
    (stFooPublished.mapGetD "example.com/foo:v1.0.0" = true ∧
      pwdFoo.PatternMatched pwdFoo.regExp.GetNotEmptyModRegex = false ∧
      baseEnv.unzipOk pwdFoo.Dependency.zipPath = true ∧
      ((createDependencyAndPrepareMod baseEnv pwdFoo
        stFooPublished).1.Dependency.modContent =
          pwdFoo.Dependency.modContent ∧
        ∃ t, (createDependencyAndPrepareMod baseEnv pwdFoo
          stFooPublished).2.1.trace = stFooPublished.trace ++ t ∧
          t.any isInitEv = false ∧ t.any isTidyEv = true)) := by
  refine ⟨⟨rfl, ?_⟩, rfl, rfl, rfl, ?_⟩
  · exact C3_skip_only_counts_but_tidy_still_runs.1 (fun p s => (p, s, none))
      stFooPublished pwdFoo rfl
  · exact C3_skip_only_counts_but_tidy_still_runs.2 baseEnv pwdFoo
      stFooPublished rfl rfl rfl

/-- C9: when a package is already marked published but the manifest
refreshed from the artifact repository cannot be read, the failure counter
is incremented and the error is merely logged: the same call still unpacks
the archive, computes the dependency graph, and returns a nil error. -/
theorem C9_refresh_failure_logged_and_run_continues
    (n : Nat) (env : Env) (targetRepo : String) (pwd : PackageWithDeps)
    (st : St)
    (hpub : st.mapGetD pwd.Dependency.id = true)
    (hpath : env.downloadModPath ((strSplit pwd.Dependency.id ':').headD "")
      ((strSplit pwd.Dependency.id ':').getD 1 "") ≠ "")
    (hread : ∃ e, env.readArtifactoryMod (env.downloadModPath
      ((strSplit pwd.Dependency.id ':').headD "")
      ((strSplit pwd.Dependency.id ':').getD 1 "")) = Except.error e)
    (hunzip : env.unzipOk pwd.Dependency.zipPath = true)
    (hempty : pwd.PatternMatched pwd.regExp.GetNotEmptyModRegex = false) :
    st.cache.failures + 1 ≤
      (PopulateModAndPublish (n + 1) env targetRepo pwd
        st).2.1.cache.failures ∧
    Ev.unzip pwd.Dependency.zipPath ∈
      (PopulateModAndPublish (n + 1) env targetRepo pwd st).2.1.trace ∧
    (∃ cw, Ev.goModGraph cw ∈
      (PopulateModAndPublish (n + 1) env targetRepo pwd st).2.1.trace) ∧
    (PopulateModAndPublish (n + 1) env targetRepo pwd st).2.2 = none := by
  obtain ⟨e, he⟩ := hread
  set dlp := env.downloadModPath ((strSplit pwd.Dependency.id ':').headD "")
    ((strSplit pwd.Dependency.id ':').getD 1 "") with hdlp
  set stX := ((st.emit (.startWork pwd.Dependency.id)).emit
    (.downloadModFromArt pwd.Dependency.id)).emit (.readFile dlp) with hstX
  simp only [PopulateModAndPublish]
  have hpub' : ((st.emit (.startWork pwd.Dependency.id)).mapGetD
      pwd.Dependency.id) = true := hpub
  simp only [hpub', if_true]
  have hupd : updateModContent env pwd
      ((st.emit (.startWork pwd.Dependency.id)).emit
        (.downloadModFromArt pwd.Dependency.id)) dlp =
      (pwd, stX.IncrementFailures, some e) := by
    simp only [updateModContent]
    rw [if_pos hpath]
    simp only [he, hstX]
  simp only [hupd]
  have hpub₂ : (stX.IncrementFailures).mapGetD pwd.Dependency.id = true := hpub
  obtain ⟨hcontent, p, cw, htr⟩ := create_published_empty_trace env pwd
    stX.IncrementFailures hpub₂ hempty hunzip
  rcases hc : createDependencyAndPrepareMod env pwd stX.IncrementFailures
    with ⟨pwd₂, st₃, path₃, out₃, e₃⟩
  rw [hc] at htr
  have hfail₃ : st₃.cache.failures = st.cache.failures + 1 := by
    have := createDependencyAndPrepareMod_cache env pwd stX.IncrementFailures
    rw [hc] at this
    simpa using congrArg DependenciesCache.failures this
  have hext : TraceExt st₃ (publishDependencyAndPopulateTransitive
      (fun p s => PopulateModAndPublish n env targetRepo p s) env targetRepo
      pwd₂ st₃ path₃ out₃).2.1 :=
    publishDep_traceExt _ env targetRepo pwd₂ st₃ path₃ out₃
      (fun p s => populate_traceExt n env targetRepo p s)
  refine ⟨?_, ?_, ⟨cw, ?_⟩, publishDep_err_none _ env targetRepo pwd₂ st₃
    path₃ out₃⟩
  · have hge := publishDep_failures_ge
      (fun p s => PopulateModAndPublish n env targetRepo p s) env targetRepo
      pwd₂ st₃ path₃ out₃ (fun p s => populate_failures_ge n env targetRepo p s)
    rw [hfail₃] at hge
    exact hge
  · refine traceExt_mem hext _ ?_
    rw [htr]
    simp
  · refine traceExt_mem hext _ ?_
    rw [htr]
    simp

/-- An environment in which the refreshed manifest download yields a path
whose read fails. -/
def envReadFail : Env :=
  { baseEnv with downloadModPath := fun _ _ => "/download/x.mod" }

/-- C9 witness at the concrete already-published `pkgFoo` whose refreshed
manifest cannot be read. -/
theorem C9_witness :
    (stFooPublished.mapGetD "example.com/foo:v1.0.0" = true ∧
      envReadFail.downloadModPath
        ((strSplit "example.com/foo:v1.0.0" ':').headD "")
        ((strSplit "example.com/foo:v1.0.0" ':').getD 1 "") ≠ "" ∧
      envReadFail.unzipOk pwdFoo.Dependency.zipPath = true ∧
      pwdFoo.PatternMatched pwdFoo.regExp.GetNotEmptyModRegex = false) ∧
    (stFooPublished.cache.failures + 1 ≤
      (PopulateModAndPublish 2 envReadFail "repo" pwdFoo
        stFooPublished).2.1.cache.failures ∧
    Ev.unzip pwdFoo.Dependency.zipPath ∈
      (PopulateModAndPublish 2 envReadFail "repo" pwdFoo
        stFooPublished).2.1.trace ∧
    (∃ cw, Ev.goModGraph cw ∈
      (PopulateModAndPublish 2 envReadFail "repo" pwdFoo
        stFooPublished).2.1.trace) ∧
    (PopulateModAndPublish 2 envReadFail "repo" pwdFoo
      stFooPublished).2.2 = none) :=
  ⟨⟨rfl, by decide, rfl, rfl⟩,
    C9_refresh_failure_logged_and_run_continues 1 envReadFail "repo" pwdFoo
      stFooPublished rfl (by decide) ⟨"read failed", rfl⟩ rfl rfl⟩

/-! ## C10: process-global effects -/

theorem getModPathAndUnzipDependency_cwd (env : Env) (pwd : PackageWithDeps)
    (st : St) : (getModPathAndUnzipDependency env pwd st).1.cwd = st.cwd := by
  simp only [getModPathAndUnzipDependency]
  repeat' split
  all_goals simp

theorem getModPathAndUnzipDependency_path_of_ok (env : Env)
    (pwd : PackageWithDeps) (st : St)
    (h : env.unzipOk pwd.Dependency.zipPath = true) :
    (getModPathAndUnzipDependency env pwd st).2.1 =
      pwd.getModPathInTemp (env.tempDirOf pwd.Dependency.zipPath) := by
  simp only [getModPathAndUnzipDependency, h]
  repeat' split
  all_goals simp_all

theorem useCachedMod_err_of_ok (env : Env) (pwd : PackageWithDeps) (st : St)
    (path : String) (h : env.chdirOk (dirOf path) = true) :
    (useCachedMod env pwd st path).2 = none := by
  simp only [useCachedMod, h]
  simp

theorem useCachedMod_cwd_of_ok (env : Env) (pwd : PackageWithDeps) (st : St)
    (path : String) (h : env.chdirOk (dirOf path) = true) :
    (useCachedMod env pwd st path).1.cwd = dirOf path := by
  simp only [useCachedMod, h]
  simp

/-- C10's claim-(ii) fact: `prepareAndRunInit` changes the working
directory to the workspace when the chdir succeeds, and nothing in it
changes it back. -/
theorem prepareAndRunInit_cwd_of_ok (env : Env) (pwd : PackageWithDeps)
    (st : St) (path : String) (h : env.chdirOk (dirOf path) = true) :
    (prepareAndRunInit env pwd st path).1.cwd = dirOf path := by
  simp only [prepareAndRunInit, h]
  repeat' split
  all_goals simp_all

/-- The non-empty-manifest branch of `createDependencyAndPrepareMod` under
successful unzip, chdir and an empty graph: the revert flag is reset, the
returned workspace path is the computed one, no children edges are
returned, the working directory ends at the workspace and `GOPROXY` stays
unset; the cache is untouched. -/
theorem create_notEmpty_ok (env : Env) (pwd : PackageWithDeps) (st : St)
    (hnotEmpty : pwd.PatternMatched pwd.regExp.GetNotEmptyModRegex = true)
    (hunzip : env.unzipOk pwd.Dependency.zipPath = true)
    (hchdir : env.chdirOk (dirOf (pwd.getModPathInTemp
      (env.tempDirOf pwd.Dependency.zipPath))) = true)
    (hgraph : env.graph (dirOf (pwd.getModPathInTemp
      (env.tempDirOf pwd.Dependency.zipPath))) = Except.ok []) :
    (createDependencyAndPrepareMod env pwd st).1.shouldRevertToEmptyMod =
      false ∧
    (createDependencyAndPrepareMod env pwd st).2.2.1 =
      pwd.getModPathInTemp (env.tempDirOf pwd.Dependency.zipPath) ∧
    (createDependencyAndPrepareMod env pwd st).2.2.2.1 = [] ∧
    (createDependencyAndPrepareMod env pwd st).2.1.cwd =
      dirOf (pwd.getModPathInTemp (env.tempDirOf pwd.Dependency.zipPath)) ∧
    (createDependencyAndPrepareMod env pwd st).2.1.goproxySet = false ∧
    (createDependencyAndPrepareMod env pwd st).2.1.cache = st.cache := by
  simp only [createDependencyAndPrepareMod]
  rcases hg : getModPathAndUnzipDependency env pwd st with ⟨st₁, path, err⟩
  have herr : err = none := by
    have := getModPathAndUnzipDependency_err_of_ok env pwd st hunzip
    rw [hg] at this
    exact this
  subst herr
  have hpath : path = pwd.getModPathInTemp (env.tempDirOf
      pwd.Dependency.zipPath) := by
    have := getModPathAndUnzipDependency_path_of_ok env pwd st hunzip
    rw [hg] at this
    exact this
  subst hpath
  have hc₁ : st₁.cache = st.cache := by
    have := getModPathAndUnzipDependency_cache env pwd st
    rw [hg] at this
    exact this
  have hgp₁ : st₁.goproxySet = false := by
    have := getModPathAndUnzipDependency_goproxySet env pwd st
    rw [hg] at this
    exact this
  simp only [PatternMatched_revertUpdate, regExp_revertUpdate, hnotEmpty,
    if_true]
  rcases hu : useCachedMod env { pwd with shouldRevertToEmptyMod := false }
    st₁ (pwd.getModPathInTemp (env.tempDirOf pwd.Dependency.zipPath))
    with ⟨st₂, err₂⟩
  have herr₂ : err₂ = none := by
    have := useCachedMod_err_of_ok env
      { pwd with shouldRevertToEmptyMod := false } st₁
      (pwd.getModPathInTemp (env.tempDirOf pwd.Dependency.zipPath)) hchdir
    rw [hu] at this
    exact this
  subst herr₂
  have hcwd₂ : st₂.cwd = dirOf (pwd.getModPathInTemp
      (env.tempDirOf pwd.Dependency.zipPath)) := by
    have := useCachedMod_cwd_of_ok env
      { pwd with shouldRevertToEmptyMod := false } st₁
      (pwd.getModPathInTemp (env.tempDirOf pwd.Dependency.zipPath)) hchdir
    rw [hu] at this
    exact this
  have hc₂ : st₂.cache = st₁.cache := by
    have := useCachedMod_cache env
      { pwd with shouldRevertToEmptyMod := false } st₁
      (pwd.getModPathInTemp (env.tempDirOf pwd.Dependency.zipPath))
    rw [hu] at this
    exact this
  have hgp₂ : st₂.goproxySet = st₁.goproxySet := by
    have := useCachedMod_goproxySet env
      { pwd with shouldRevertToEmptyMod := false } st₁
      (pwd.getModPathInTemp (env.tempDirOf pwd.Dependency.zipPath))
    rw [hu] at this
    exact this
  have hrun : runGoModGraph env st₂ =
      (st₂.emit (.goModGraph st₂.cwd), [], none) := by
    simp only [runGoModGraph, emit_cwd, hcwd₂, hgraph]
  simp only [hrun]
  refine ⟨by trivial, by trivial, by trivial, by simp [hcwd₂],
    by simp [hgp₂, hgp₁], by simp [hc₂, hc₁]⟩

/-- `publishDependencyAndPopulateTransitive` with an empty graph neither
changes the working directory nor re-sets `GOPROXY`. -/
theorem publishDep_noChildren_frame
    (recurse : PackageWithDeps → St → PackageWithDeps × St × Option String)
    (env : Env) (targetRepo : String) (pwd : PackageWithDeps) (st : St)
    (path : String) :
    (publishDependencyAndPopulateTransitive recurse env targetRepo pwd st
      path []).2.1.cwd = st.cwd ∧
    (publishDependencyAndPopulateTransitive recurse env targetRepo pwd st
      path []).2.1.goproxySet = st.goproxySet := by
  have hexp : expandGraphStage env targetRepo pwd st path [] = ([], st) := rfl
  constructor
  · simp only [publishDependencyAndPopulateTransitive, publishDepCore, hexp,
      removeAllStep_cwd, publishStage_cwd, revertStage_cwd, List.isEmpty_nil,
      if_true, goCachePersistStage_cwd]
  · simp only [publishDependencyAndPopulateTransitive, publishDepCore, hexp,
      removeAllStep_goproxySet, publishStage_goproxySet,
      revertStage_goproxySet, List.isEmpty_nil, if_true,
      goCachePersistStage_goproxySet]

/-- C10: (i) every workspace preparation first unsets `GOPROXY` — before
the unzip, unconditionally — and leaves it unset on both outcomes; (ii)
the init path changes the process working directory to the workspace when
chdir succeeds; (iii) in the non-empty-manifest path, a leaf run (empty
graph) finishes with the working directory still equal to the workspace
directory and `GOPROXY` still unset: neither is restored on completion. -/
theorem C10_global_env_and_cwd_effects :
    (∀ (env : Env) (pwd : PackageWithDeps) (st : St),
      (getModPathAndUnzipDependency env pwd st).1.goproxySet = false ∧
      (getModPathAndUnzipDependency env pwd st).1.trace =
        st.trace ++ [.unsetGoproxy, .unzip pwd.Dependency.zipPath]) ∧
    (∀ (env : Env) (pwd : PackageWithDeps) (st : St) (path : String),
      env.chdirOk (dirOf path) = true →
      (prepareAndRunInit env pwd st path).1.cwd = dirOf path) ∧
    (∀ (n : Nat) (env : Env) (targetRepo : String) (pwd : PackageWithDeps)
      (st : St),
      st.mapGetD pwd.Dependency.id = false →
      pwd.PatternMatched pwd.regExp.GetNotEmptyModRegex = true →
      env.unzipOk pwd.Dependency.zipPath = true →
      env.chdirOk (dirOf (pwd.getModPathInTemp
        (env.tempDirOf pwd.Dependency.zipPath))) = true →
      env.graph (dirOf (pwd.getModPathInTemp
        (env.tempDirOf pwd.Dependency.zipPath))) = Except.ok [] →
      (PopulateModAndPublish (n + 1) env targetRepo pwd st).2.1.cwd =
        dirOf (pwd.getModPathInTemp (env.tempDirOf pwd.Dependency.zipPath)) ∧
      (PopulateModAndPublish (n + 1) env targetRepo pwd
        st).2.1.goproxySet = false) := by
  refine ⟨?_, prepareAndRunInit_cwd_of_ok, ?_⟩
  · intro env pwd st
    exact ⟨getModPathAndUnzipDependency_goproxySet env pwd st,
      getModPathAndUnzipDependency_trace env pwd st⟩
  · intro n env targetRepo pwd st hpub hnotEmpty hunzip hchdir hgraph
    simp only [PopulateModAndPublish]
    have hpub' : ((st.emit (.startWork pwd.Dependency.id)).mapGetD
        pwd.Dependency.id) = false := hpub
    simp only [hpub', Bool.false_eq_true, if_false]
    obtain ⟨hrev, hpath, hout, hcwd, hgp, hcache⟩ := create_notEmpty_ok env
      pwd (st.emit (.startWork pwd.Dependency.id)) hnotEmpty hunzip hchdir
      hgraph
    rcases hc : createDependencyAndPrepareMod env pwd
      (st.emit (.startWork pwd.Dependency.id))
      with ⟨pwd₂, st₃, path₃, out₃, e₃⟩
    rw [hc] at hrev hpath hout hcwd hgp hcache
    simp only at hrev hpath hout hcwd hgp hcache
    subst hpath
    subst hout
    have hframe := publishDep_noChildren_frame
      (fun p s => PopulateModAndPublish n env targetRepo p s) env targetRepo
      pwd₂ st₃ (pwd.getModPathInTemp (env.tempDirOf pwd.Dependency.zipPath))
    exact ⟨by rw [hframe.1, hcwd], by rw [hframe.2, hgp]⟩

/-- C10 witness: a concrete non-empty-manifest leaf run ends in the
workspace directory with `GOPROXY` unset. -/
def pkgBaz : Package where
  id := "example.com/baz:v1.0.0"
  modContent := "module example.com/baz"
  zipPath := "baz.zip"

/-- Resolver node over `pkgBaz` (non-empty manifest). -/
def pwdBaz : PackageWithDeps where
  Dependency := pkgBaz
  regExp := testRegExp
  cachePath := "/gocache"
  GoModEditMessage := "// Generated by JFrog"

theorem C10_witness :
    (st0.mapGetD "example.com/baz:v1.0.0" = false ∧
      pwdBaz.PatternMatched pwdBaz.regExp.GetNotEmptyModRegex = true ∧
      baseEnv.unzipOk pwdBaz.Dependency.zipPath = true ∧
      baseEnv.chdirOk (dirOf (pwdBaz.getModPathInTemp
        (baseEnv.tempDirOf pwdBaz.Dependency.zipPath))) = true ∧
      baseEnv.graph (dirOf (pwdBaz.getModPathInTemp
        (baseEnv.tempDirOf pwdBaz.Dependency.zipPath))) = Except.ok []) ∧
    ((PopulateModAndPublish 2 baseEnv "repo" pwdBaz st0).2.1.cwd =
      dirOf (pwdBaz.getModPathInTemp
        (baseEnv.tempDirOf pwdBaz.Dependency.zipPath)) ∧
     (PopulateModAndPublish 2 baseEnv "repo" pwdBaz st0).2.1.goproxySet =
      false) :=
  ⟨⟨rfl, rfl, rfl, rfl, rfl⟩,
    C10_global_env_and_cwd_effects.2.2 1 baseEnv "repo" pwdBaz st0 rfl rfl
      rfl rfl rfl⟩

/-! ## C2: tidy-based bootstrap reverts to the pre-tidy snapshot -/

/-- C2: for a node that took the tidy-based bootstrap branch (revert flag
set) and whose id is recorded unpublished, the manifest finally written to
the workspace mod file, stored in `manifestContent`, persisted to the
local module cache and submitted to publish is the recorded pre-tidy
snapshot, with the edit message and a blank line prepended exactly when
the snapshot does not match the generated-by pattern; the tidy output is
never the final content of any of these. -/
theorem C2_revert_is_manifest_of_record
    (recurse : PackageWithDeps → St → PackageWithDeps × St × Option String)
    (env : Env) (targetRepo : String) (pwd : PackageWithDeps) (st : St)
    (path : String) (deps : List String)
    (hrev : pwd.shouldRevertToEmptyMod = true)
    (hpub : assocGet st.cache.depsMap pwd.Dependency.id = some false) :
    (publishDependencyAndPopulateTransitive recurse env targetRepo pwd st
      path deps).1.Dependency.modContent =
      (if pwd.regExp.GetGeneratedBy pwd.originalModContent then
        pwd.originalModContent
      else pwd.GoModEditMessage ++ "\n\n" ++ pwd.originalModContent) ∧
    lastWrite (publishDependencyAndPopulateTransitive recurse env targetRepo
      pwd st path deps).2.1.trace path =
      some (if pwd.regExp.GetGeneratedBy pwd.originalModContent then
        pwd.originalModContent
      else pwd.GoModEditMessage ++ "\n\n" ++ pwd.originalModContent) ∧
    lastWrite (publishDependencyAndPopulateTransitive recurse env targetRepo
      pwd st path deps).2.1.trace
      (goModCachePath pwd.cachePath pwd.Dependency.id) =
      some (if pwd.regExp.GetGeneratedBy pwd.originalModContent then
        pwd.originalModContent
      else pwd.GoModEditMessage ++ "\n\n" ++ pwd.originalModContent) ∧
    Ev.publish pwd.Dependency.id
      (if pwd.regExp.GetGeneratedBy pwd.originalModContent then
        pwd.originalModContent
      else pwd.GoModEditMessage ++ "\n\n" ++ pwd.originalModContent) ∈
      (publishDependencyAndPopulateTransitive recurse env targetRepo pwd st
        path deps).2.1.trace := by
  have hpub₁ : assocGet (expandGraphStage env targetRepo pwd st path
      deps).2.cache.depsMap pwd.Dependency.id = some false :=
    expandGraphStage_entry_pres env targetRepo pwd st path deps
      pwd.Dependency.id false hpub
  have hsnap : (expandGraphStage env targetRepo pwd st path
      deps).2.mapGetD pwd.Dependency.id = false := by
    simp [St.mapGetD, hpub₁]
  simp only [publishDependencyAndPopulateTransitive, publishDepCore, hsnap,
    revertStage, Bool.not_false, hrev, and_self, if_true, true_and,
    publishStage]
  rw [removeAllStep_trace]
  rw [pwdPrepareAndPublish_trace]
  simp only [writeModContentToGoCache_trace, writeModContentToModFile_trace]
  repeat' apply And.intro
  all_goals try rfl
  all_goals try (simp only [lastWrite, List.foldl_append, List.foldl_cons,
    List.foldl_nil, if_true, ite_self])
  all_goals simp

/-- A node over `pkgFoo` that took the tidy-based bootstrap branch: revert
flag set, empty pre-tidy snapshot. -/
def pwdRevert : PackageWithDeps :=
  { pwdFoo with shouldRevertToEmptyMod := true, originalModContent := "" }

/-- A state in which `pkgFoo` is recorded in the map as seen but not yet
published. -/
def stFooClaimed : St :=
  { cache := { depsMap := [("example.com/foo:v1.0.0", false)] } }

/-- C2 witness at a concrete node with the revert flag set and an empty
snapshot: the marker plus a blank line is prepended everywhere. -/
theorem C2_witness :
    (pwdRevert.shouldRevertToEmptyMod = true ∧
     assocGet stFooClaimed.cache.depsMap pwdRevert.Dependency.id =
       some false) ∧
    ((publishDependencyAndPopulateTransitive (fun p s => (p, s, none))
      baseEnv "repo" pwdRevert stFooClaimed "/w/go.mod"
      []).1.Dependency.modContent =
      (if pwdRevert.regExp.GetGeneratedBy pwdRevert.originalModContent then
        pwdRevert.originalModContent
      else pwdRevert.GoModEditMessage ++ "\n\n" ++
        pwdRevert.originalModContent) ∧
    lastWrite (publishDependencyAndPopulateTransitive (fun p s => (p, s, none))
      baseEnv "repo" pwdRevert stFooClaimed "/w/go.mod" []).2.1.trace
      "/w/go.mod" =
      some (if pwdRevert.regExp.GetGeneratedBy pwdRevert.originalModContent
        then pwdRevert.originalModContent
      else pwdRevert.GoModEditMessage ++ "\n\n" ++
        pwdRevert.originalModContent) ∧
    lastWrite (publishDependencyAndPopulateTransitive (fun p s => (p, s, none))
      baseEnv "repo" pwdRevert stFooClaimed "/w/go.mod" []).2.1.trace
      (goModCachePath pwdRevert.cachePath pwdRevert.Dependency.id) =
      some (if pwdRevert.regExp.GetGeneratedBy pwdRevert.originalModContent
        then pwdRevert.originalModContent
      else pwdRevert.GoModEditMessage ++ "\n\n" ++
        pwdRevert.originalModContent) ∧
    Ev.publish pwdRevert.Dependency.id
      (if pwdRevert.regExp.GetGeneratedBy pwdRevert.originalModContent then
        pwdRevert.originalModContent
      else pwdRevert.GoModEditMessage ++ "\n\n" ++
        pwdRevert.originalModContent) ∈
      (publishDependencyAndPopulateTransitive (fun p s => (p, s, none))
        baseEnv "repo" pwdRevert stFooClaimed "/w/go.mod" []).2.1.trace) :=
  ⟨⟨rfl, rfl⟩, C2_revert_is_manifest_of_record (fun p s => (p, s, none))
    baseEnv "repo" pwdRevert stFooClaimed "/w/go.mod" [] rfl rfl⟩

/-! ## C8: counter accounting -/

/-- C8 counterexample: a completed single-node run (no children, publish
succeeds) ends with `totals = 0` but `successes = 1`: the claimed equation
`totals = successes + failures + skipped` fails because the root's own
publish outcome is counted in the success/failure counters while `totals`
only ever counts constructed children. -/
theorem C8_counterexample :
    (PopulateModAndPublish 2 baseEnv "repo" pwdFoo st0).2.1.cache.total = 0 ∧
    (PopulateModAndPublish 2 baseEnv "repo" pwdFoo st0).2.1.cache.success =
      1 ∧
    (PopulateModAndPublish 2 baseEnv "repo" pwdFoo st0).2.1.cache.failures =
      0 ∧
    countSkip (PopulateModAndPublish 2 baseEnv "repo" pwdFoo
      st0).2.1.trace = 0 ∧
    (PopulateModAndPublish 2 baseEnv "repo" pwdFoo st0).2.1.fuelOut =
      false ∧
    ¬((PopulateModAndPublish 2 baseEnv "repo" pwdFoo st0).2.1.cache.total =
      (PopulateModAndPublish 2 baseEnv "repo" pwdFoo st0).2.1.cache.success +
      (PopulateModAndPublish 2 baseEnv "repo" pwdFoo
        st0).2.1.cache.failures +
      countSkip (PopulateModAndPublish 2 baseEnv "repo" pwdFoo
        st0).2.1.trace) :=
  ⟨rfl, rfl, rfl, rfl, rfl, by decide⟩

theorem isSome_getD_false {o : Option Bool} (h1 : o.isSome)
    (h2 : o.getD false = false) : o = some false := by
  cases o with
  | none => simp at h1
  | some b => simpa using h2

/-- Each visited child contributes exactly one success-or-failure
increment: a skip adds one success, and a recursion adds, by the inductive
hypothesis, exactly the growth of the total counter plus one. -/
theorem populateTransitiveFold_outcome
    (recurse : PackageWithDeps → St → PackageWithDeps × St × Option String)
    (hrecE : ∀ p s, assocGet s.cache.depsMap p.Dependency.id = some false →
      (recurse p s).2.1.fuelOut = false →
      (recurse p s).2.1.cache.success + (recurse p s).2.1.cache.failures +
        s.cache.total =
      s.cache.success + s.cache.failures + (recurse p s).2.1.cache.total + 1)
    (hrecSome : ∀ p s k, (assocGet s.cache.depsMap k).isSome →
      (assocGet (recurse p s).2.1.cache.depsMap k).isSome)
    (hrecFuel : ∀ p s, s.fuelOut = true → (recurse p s).2.1.fuelOut = true) :
    ∀ (cs : List PackageWithDeps) (s : St),
      (∀ c ∈ cs, (assocGet s.cache.depsMap c.Dependency.id).isSome) →
      (cs.foldl (populateTransitiveVisit recurse) s).fuelOut = false →
      (cs.foldl (populateTransitiveVisit recurse) s).cache.success +
        (cs.foldl (populateTransitiveVisit recurse) s).cache.failures +
        s.cache.total =
      s.cache.success + s.cache.failures +
        (cs.foldl (populateTransitiveVisit recurse) s).cache.total +
        cs.length := by
  intro cs
  induction cs with
  | nil =>
    intro s _ _
    simp
  | cons c rest ih =>
    intro s hpres hdone
    rw [List.foldl_cons] at hdone ⊢
    cases hb : s.mapGetD c.Dependency.id with
    | false =>
      have hv : populateTransitiveVisit recurse s c = (recurse c s).2.1 := by
        simp [populateTransitiveVisit, hb]
      rw [hv] at hdone ⊢
      have hfalse : assocGet s.cache.depsMap c.Dependency.id = some false :=
        isSome_getD_false (hpres c (List.mem_cons_self _ _)) hb
      have hf₁ : (recurse c s).2.1.fuelOut = false := by
        by_contra hx
        have hx' : (recurse c s).2.1.fuelOut = true := by
          revert hx
          cases (recurse c s).2.1.fuelOut <;> simp
        have := populateTransitiveFold_fuelOut_mono recurse hrecFuel rest
          (recurse c s).2.1 hx'
        rw [this] at hdone
        exact Bool.noConfusion hdone
      have heq₁ := hrecE c s hfalse hf₁
      have hpres₁ : ∀ c' ∈ rest,
          (assocGet (recurse c s).2.1.cache.depsMap
            c'.Dependency.id).isSome := by
        intro c' hc'
        exact hrecSome c s c'.Dependency.id
          (hpres c' (List.mem_cons_of_mem _ hc'))
      have ih₁ := ih (recurse c s).2.1 hpres₁ hdone
      simp only [List.length_cons]
      omega
    | true =>
      have hv : populateTransitiveVisit recurse s c =
          (s.IncrementSuccess).emit (.skipPublished c.Dependency.id) := by
        simp [populateTransitiveVisit, hb]
      rw [hv] at hdone ⊢
      have hpres₁ : ∀ c' ∈ rest,
          (assocGet ((s.IncrementSuccess).emit
            (.skipPublished c.Dependency.id)).cache.depsMap
            c'.Dependency.id).isSome := by
        intro c' hc'
        simpa using hpres c' (List.mem_cons_of_mem _ hc')
      have ih₁ := ih ((s.IncrementSuccess).emit
        (.skipPublished c.Dependency.id)) hpres₁ hdone
      simp only [emit_cache, IncrementSuccess_success, IncrementSuccess_total,
        IncrementSuccess_failures] at ih₁
      simp only [List.length_cons]
      omega

theorem prepareUnpublishedDependency_id (env : Env) (pwd : PackageWithDeps)
    (st : St) (path : String) :
    (prepareUnpublishedDependency env pwd st path).1.Dependency.id =
      pwd.Dependency.id := rfl

/-- `createDependencyAndPrepareMod` never changes the package identity. -/
theorem createDependencyAndPrepareMod_id (env : Env) (pwd : PackageWithDeps)
    (st : St) :
    (createDependencyAndPrepareMod env pwd st).1.Dependency.id =
      pwd.Dependency.id := by
  simp only [createDependencyAndPrepareMod]
  rcases hg : getModPathAndUnzipDependency env pwd st with ⟨st₁, path, err⟩
  rcases err with _ | e
  · simp only []
    split
    · rcases h₂ : useCachedMod env
        { pwd with shouldRevertToEmptyMod := false } st₁ path with ⟨st₂, err₂⟩
      rcases err₂ with _ | e₂
      · rcases h₃ : runGoModGraph env st₂ with ⟨st₃, out, e₃⟩
        simp
      · simp
    · split
      · rcases h₂ : prepareUnpublishedDependency env
          { pwd with shouldRevertToEmptyMod := false } st₁ path
          with ⟨pwd₂, st₂, orig⟩
        have hid : pwd₂.Dependency.id = pwd.Dependency.id := by
          have := prepareUnpublishedDependency_id env
            { pwd with shouldRevertToEmptyMod := false } st₁ path
          rw [h₂] at this
          simpa using this
        simp only []
        split
        · rcases h₃ : populateModWithTidy env st₂ path with ⟨st₃, e₃⟩
          rcases h₄ : runGoModGraph env st₃ with ⟨st₄, out, e₄⟩
          simp [hid]
        · rcases h₄ : runGoModGraph env st₂ with ⟨st₄, out, e₄⟩
          simp [hid]
      · simp only []
        split
        · rcases h₃ : populateModWithTidy env
            (writeModContentToModFile st₁ path pwd.Dependency.modContent) path
            with ⟨st₃, e₃⟩
          rcases h₄ : runGoModGraph env st₃ with ⟨st₄, out, e₄⟩
          simp
        · rcases h₄ : runGoModGraph env
            (writeModContentToModFile st₁ path pwd.Dependency.modContent)
            with ⟨st₄, out, e₄⟩
          simp
  · simp

/-- The per-node accounting of `publishDependencyAndPopulateTransitive`:
for a node recorded unpublished, a completed call books exactly one more
success-or-failure than the growth of the total counter. -/
theorem publishDep_outcome_eq
    (recurse : PackageWithDeps → St → PackageWithDeps × St × Option String)
    (env : Env) (targetRepo : String) (pwd : PackageWithDeps) (st : St)
    (path : String) (deps : List String)
    (hrecE : ∀ p s, assocGet s.cache.depsMap p.Dependency.id = some false →
      (recurse p s).2.1.fuelOut = false →
      (recurse p s).2.1.cache.success + (recurse p s).2.1.cache.failures +
        s.cache.total =
      s.cache.success + s.cache.failures + (recurse p s).2.1.cache.total + 1)
    (hrecSome : ∀ p s k, (assocGet s.cache.depsMap k).isSome →
      (assocGet (recurse p s).2.1.cache.depsMap k).isSome)
    (hrecFuel : ∀ p s, s.fuelOut = true → (recurse p s).2.1.fuelOut = true)
    (hpub : assocGet st.cache.depsMap pwd.Dependency.id = some false)
    (hdone : (publishDependencyAndPopulateTransitive recurse env targetRepo
      pwd st path deps).2.1.fuelOut = false) :
    (publishDependencyAndPopulateTransitive recurse env targetRepo pwd st
      path deps).2.1.cache.success +
    (publishDependencyAndPopulateTransitive recurse env targetRepo pwd st
      path deps).2.1.cache.failures + st.cache.total =
    st.cache.success + st.cache.failures +
    (publishDependencyAndPopulateTransitive recurse env targetRepo pwd st
      path deps).2.1.cache.total + 1 := by
  have hpub₁ : assocGet (expandGraphStage env targetRepo pwd st path
      deps).2.cache.depsMap pwd.Dependency.id = some false :=
    expandGraphStage_entry_pres env targetRepo pwd st path deps
      pwd.Dependency.id false hpub
  have hsnap : (expandGraphStage env targetRepo pwd st path
      deps).2.mapGetD pwd.Dependency.id = false := by
    simp [St.mapGetD, hpub₁]
  simp only [publishDependencyAndPopulateTransitive, publishDepCore, hsnap,
    removeAllStep_fuelOut, publishStage_fuelOut, revertStage_fuelOut]
    at hdone
  simp only [publishDependencyAndPopulateTransitive, publishDepCore, hsnap,
    removeAllStep_cache]
  obtain ⟨hexpT, hexpS, hexpF, _, _, _⟩ := expandGraphStage_counters env
    targetRepo pwd st path deps
  have hgoc := goCachePersistStage_cache pwd false
    (expandGraphStage env targetRepo pwd st path deps).2
  split at hdone
  · -- no children
    rename_i hempt
    simp only [hempt, if_true] at hdone ⊢
    have hrc := revertStage_cache pwd false
      (goCachePersistStage pwd false
        (expandGraphStage env targetRepo pwd st path deps).2) path
    simp only [publishStage, Bool.not_false, if_true]
    have ho := pwdPrepareAndPublish_outcome env
      (revertStage pwd false
        (goCachePersistStage pwd false
          (expandGraphStage env targetRepo pwd st path deps).2) path).1
      (revertStage pwd false
        (goCachePersistStage pwd false
          (expandGraphStage env targetRepo pwd st path deps).2) path).2
    have ht := pwdPrepareAndPublish_total env
      (revertStage pwd false
        (goCachePersistStage pwd false
          (expandGraphStage env targetRepo pwd st path deps).2) path).1
      (revertStage pwd false
        (goCachePersistStage pwd false
          (expandGraphStage env targetRepo pwd st path deps).2) path).2
    rw [hrc, hgoc] at ho ht
    omega
  · -- children traversed
    rename_i hempt
    have hempt' : (expandGraphStage env targetRepo pwd st path
        deps).1.isEmpty = false := by
      revert hempt
      cases (expandGraphStage env targetRepo pwd st path deps).1.isEmpty <;>
        simp
    simp only [hempt', Bool.false_eq_true, if_false] at hdone ⊢
    have hchild : ∀ c ∈ (expandGraphStage env targetRepo pwd st path
        deps).1,
        (assocGet ((goCachePersistStage pwd false
          (expandGraphStage env targetRepo pwd st path
            deps).2).IncrementTotal
          (expandGraphStage env targetRepo pwd st path
            deps).1.length).cache.depsMap c.Dependency.id).isSome := by
      intro c hc
      obtain ⟨_, _, _, _, e, _, p', v', flag, _, _, _, hget⟩ :=
        expandGraphStage_shape env targetRepo pwd st path deps c hc
      simp only [IncrementTotal_depsMap, hgoc]
      simp [hget]
    have hfoldDone : (((expandGraphStage env targetRepo pwd st path
        deps).1).foldl (populateTransitiveVisit recurse)
        ((goCachePersistStage pwd false
          (expandGraphStage env targetRepo pwd st path
            deps).2).IncrementTotal
          (expandGraphStage env targetRepo pwd st path
            deps).1.length)).fuelOut = false := by
      simpa [populateTransitive] using hdone
    have hfold := populateTransitiveFold_outcome recurse hrecE hrecSome
      hrecFuel (expandGraphStage env targetRepo pwd st path deps).1
      ((goCachePersistStage pwd false
        (expandGraphStage env targetRepo pwd st path deps).2).IncrementTotal
        (expandGraphStage env targetRepo pwd st path deps).1.length)
      hchild hfoldDone
    have hrc := revertStage_cache pwd false
      (populateTransitive recurse
        (goCachePersistStage pwd false
          (expandGraphStage env targetRepo pwd st path deps).2)
        (expandGraphStage env targetRepo pwd st path deps).1) path
    simp only [publishStage, Bool.not_false, if_true]
    have ho := pwdPrepareAndPublish_outcome env
      (revertStage pwd false
        (populateTransitive recurse
          (goCachePersistStage pwd false
            (expandGraphStage env targetRepo pwd st path deps).2)
          (expandGraphStage env targetRepo pwd st path deps).1) path).1
      (revertStage pwd false
        (populateTransitive recurse
          (goCachePersistStage pwd false
            (expandGraphStage env targetRepo pwd st path deps).2)
          (expandGraphStage env targetRepo pwd st path deps).1) path).2
    have ht := pwdPrepareAndPublish_total env
      (revertStage pwd false
        (populateTransitive recurse
          (goCachePersistStage pwd false
            (expandGraphStage env targetRepo pwd st path deps).2)
          (expandGraphStage env targetRepo pwd st path deps).1) path).1
      (revertStage pwd false
        (populateTransitive recurse
          (goCachePersistStage pwd false
            (expandGraphStage env targetRepo pwd st path deps).2)
          (expandGraphStage env targetRepo pwd st path deps).1) path).2
    rw [hrc] at ho ht
    simp only [populateTransitive] at ho ht ⊢
    simp only [emit_cache, IncrementTotal_total, IncrementTotal_success,
      IncrementTotal_failures, hgoc] at hfold
    omega

/-- C8 amended: for a completed run on a node recorded in the shared map
as unpublished, the success and failure counters together grow by exactly
the growth of the total counter plus one: every constructed child accounts
for exactly one success-or-failure (a skipped already-published child is
counted as a success), and the root's own publish outcome is the extra
one, which `totals` never counts. -/
theorem C8_per_run_outcome_conservation :
    ∀ (fuel : Nat) (env : Env) (targetRepo : String) (pwd : PackageWithDeps)
      (st : St),
      assocGet st.cache.depsMap pwd.Dependency.id = some false →
      (PopulateModAndPublish fuel env targetRepo pwd st).2.1.fuelOut =
        false →
      (PopulateModAndPublish fuel env targetRepo pwd
        st).2.1.cache.success +
      (PopulateModAndPublish fuel env targetRepo pwd
        st).2.1.cache.failures + st.cache.total =
      st.cache.success + st.cache.failures +
      (PopulateModAndPublish fuel env targetRepo pwd st).2.1.cache.total +
        1 := by
  intro fuel
  induction fuel with
  | zero =>
    intro env targetRepo pwd st hpub hdone
    simp [PopulateModAndPublish] at hdone
  | succ n ih =>
    intro env targetRepo pwd st hpub hdone
    simp only [PopulateModAndPublish] at hdone ⊢
    have hpub' : (st.emit (.startWork pwd.Dependency.id)).mapGetD
        pwd.Dependency.id = false := by
      simp [St.mapGetD, hpub]
    simp only [hpub', Bool.false_eq_true, if_false] at hdone ⊢
    rcases hc : createDependencyAndPrepareMod env pwd
      (st.emit (.startWork pwd.Dependency.id))
      with ⟨pwd₂, st₂, path₂, out₂, e₂⟩
    rw [hc] at hdone
    have hcc : st₂.cache = st.cache := by
      have := createDependencyAndPrepareMod_cache env pwd
        (st.emit (.startWork pwd.Dependency.id))
      rw [hc] at this
      simpa using this
    have hid : pwd₂.Dependency.id = pwd.Dependency.id := by
      have := createDependencyAndPrepareMod_id env pwd
        (st.emit (.startWork pwd.Dependency.id))
      rw [hc] at this
      simpa using this
    have hpub₂ : assocGet st₂.cache.depsMap pwd₂.Dependency.id =
        some false := by
      rw [hcc, hid]
      exact hpub
    have hmain := publishDep_outcome_eq
      (fun p s => PopulateModAndPublish n env targetRepo p s) env targetRepo
      pwd₂ st₂ path₂ out₂
      (fun p s hp hd => ih env targetRepo p s hp hd)
      (fun p s k hk => populate_entry_isSome n env targetRepo p s k hk)
      (fun p s hf => populate_fuelOut_mono n env targetRepo p s hf)
      hpub₂ hdone
    rw [hcc] at hmain
    exact hmain

/-- C8 witness: a concrete completed run on a claimed-unpublished root with
no children books exactly one success beyond the unchanged total. -/
theorem C8_witness :
    (assocGet stFooClaimed.cache.depsMap pwdFoo.Dependency.id =
      some false) ∧
    ((PopulateModAndPublish 2 baseEnv "repo" pwdFoo
      stFooClaimed).2.1.fuelOut = false) ∧
    ((PopulateModAndPublish 2 baseEnv "repo" pwdFoo
      stFooClaimed).2.1.cache.success +
     (PopulateModAndPublish 2 baseEnv "repo" pwdFoo
      stFooClaimed).2.1.cache.failures + stFooClaimed.cache.total =
     stFooClaimed.cache.success + stFooClaimed.cache.failures +
     (PopulateModAndPublish 2 baseEnv "repo" pwdFoo
      stFooClaimed).2.1.cache.total + 1) :=
  ⟨rfl, rfl, C8_per_run_outcome_conservation 2 baseEnv "repo" pwdFoo
    stFooClaimed rfl rfl⟩
